import Mathlib

/-!
Verification of the NvTriStrip stripifier engine against its design
specification.  The definitions below are a shallow embedding of the C++
sources (NvTriStrip.cpp, NvTriStripObjects.cpp, NvTriStripObjects.h,
VertexCache.h): pointers become list positions or `Option`, machine
integers become `Int`/`Nat`, out-of-bounds vector accesses become
`Except` errors, and the small fixed loops of the source become
structural or fueled recursions.  Source float arithmetic is noted at
each definition that touches it.
-/

namespace NvTriStrip

/-- Face record, mirroring `NvFaceInfo` of NvTriStripObjects.h: three
vertex indices plus the strip/experiment bookkeeping ids, which the
constructor initialises to -1. -/
structure NvFaceInfo where
  m_v0 : Int
  m_v1 : Int
  m_v2 : Int
  m_stripId : Int := -1
  m_testStripId : Int := -1
  m_experimentId : Int := -1
deriving Repr, DecidableEq, Inhabited

/-- Vertex membership test used by `GetUniqueVertexInB` and
`GetSharedVertices`: whether `v` is one of the face's three vertices. -/
def VertexInFace (v : Int) (f : NvFaceInfo) : Bool :=
  v == f.m_v0 || v == f.m_v1 || v == f.m_v2

/-- `NvStripifier::IsDegenerate(const NvFaceInfo*)`: two equal vertex
indices. -/
def IsDegenerate (f : NvFaceInfo) : Bool :=
  f.m_v0 == f.m_v1 || f.m_v0 == f.m_v2 || f.m_v1 == f.m_v2

/-- `NvStripifier::IsDegenerate(v0, v1, v2)`, the raw-index overload
used by `BuildStripifyInfo` on the input triangles. -/
def IsDegenerate3 (v0 v1 v2 : Int) : Bool :=
  v0 == v1 || v0 == v2 || v1 == v2

/-- `NvStripifier::GetUniqueVertexInB`: the first vertex of `faceB`
that does not occur in `faceA`, or -1 when every vertex is shared. -/
def GetUniqueVertexInB (faceA faceB : NvFaceInfo) : Int :=
  if !(VertexInFace faceB.m_v0 faceA) then faceB.m_v0
  else if !(VertexInFace faceB.m_v1 faceA) then faceB.m_v1
  else if !(VertexInFace faceB.m_v2 faceA) then faceB.m_v2
  else -1

/-- `NvStripifier::GetSharedVertices`: the (at most two) vertices of
`faceB` shared with `faceA`, filled slot by slot with the source's
early-return once both slots are full; -1 marks an empty slot.  The
inner `if faceB.m_v1 = -1` branch mirrors the source's re-check of
`*vertex0 == -1` inside the v2 block after slot 0 received `facev1`. -/
def GetSharedVertices (faceA faceB : NvFaceInfo) : Int × Int :=
  let s0a : Int := if VertexInFace faceB.m_v0 faceA then faceB.m_v0 else -1
  if VertexInFace faceB.m_v1 faceA then
    if s0a = -1 then
      if VertexInFace faceB.m_v2 faceA then
        if faceB.m_v1 = -1 then (faceB.m_v2, -1) else (faceB.m_v1, faceB.m_v2)
      else (faceB.m_v1, -1)
    else (s0a, faceB.m_v1)
  else
    if VertexInFace faceB.m_v2 faceA then
      if s0a = -1 then (faceB.m_v2, -1) else (s0a, faceB.m_v2)
    else (s0a, -1)

/-- `NvStripifier::IsCW`: the edge v0 to v1 is one of the face's cyclic
edges in stored orientation. -/
def IsCW (f : NvFaceInfo) (v0 v1 : Int) : Bool :=
  if f.m_v0 == v0 then f.m_v1 == v1
  else if f.m_v1 == v0 then f.m_v2 == v1
  else f.m_v0 == v1

/-- `NvStripifier::NextIsCW`: parity of the number of indices emitted
so far. -/
def NextIsCW (numIndices : Int) : Bool :=
  numIndices % 2 == 0

/-! VertexCache.h.  The cache is a list of `numEntries` integer slots;
-1 marks an empty slot.  `AddEntry` shifts every slot right by one,
evicting the last, and writes the new entry at slot 0. -/

/-- VertexCache constructor: every slot initialised to -1. -/
def NewCache (size : Nat) : List Int :=
  List.replicate size (-1)

/-- `VertexCache::InCache`: linear search of the slots. -/
def InCache (cache : List Int) (entry : Int) : Bool :=
  cache.contains entry

/-- `VertexCache::AddEntry`: prepend at slot 0, shift everything right,
drop the last slot's content. -/
def AddEntry (cache : List Int) (entry : Int) : List Int :=
  entry :: cache.dropLast

/-- `VertexCache::Clear`: all slots back to -1. -/
def ClearCache (cache : List Int) : List Int :=
  List.replicate cache.length (-1)

/-- `NvStripifier::UpdateCacheFace`: each of the face's three vertices
is inserted only when `InCache` reports it absent. -/
def UpdateCacheFace (cache : List Int) (face : NvFaceInfo) : List Int :=
  let c0 := if InCache cache face.m_v0 then cache else AddEntry cache face.m_v0
  let c1 := if InCache c0 face.m_v1 then c0 else AddEntry c0 face.m_v1
  if InCache c1 face.m_v2 then c1 else AddEntry c1 face.m_v2

/-- `NvStripifier::UpdateCacheStrip`: update the cache with every face
of the strip in order. -/
def UpdateCacheStrip (cache : List Int) (faces : List NvFaceInfo) : List Int :=
  faces.foldl UpdateCacheFace cache

/-- `NvStripifier::CalcNumHitsFace`: number of the face's vertices
already present in the cache. -/
def CalcNumHitsFace (cache : List Int) (face : NvFaceInfo) : Int :=
  (if InCache cache face.m_v0 then 1 else 0) +
  (if InCache cache face.m_v1 then 1 else 0) +
  (if InCache cache face.m_v2 then 1 else 0)

/-- Invariant checked by claim C10: the non-empty slots of the cache
are pairwise distinct. -/
def DistinctCache (cache : List Int) : Prop :=
  (cache.filter (fun x => x != -1)).Nodup

/-- Hypothesis carried around the emitter and cache lemmas: face
vertices originate from `unsigned int` input indices, hence are
non-negative. -/
def FaceNonneg (f : NvFaceInfo) : Prop :=
  0 ≤ f.m_v0 ∧ 0 ≤ f.m_v1 ∧ 0 ≤ f.m_v2

/-! `NvStripifier::CreateStrips`.  The emitter walks the strips in
order; for each strip it canonicalises the first face, emits it
(with the winding tap or stitching double-tap), then emits one index
per further face, and finally either bridges to the next strip
(stitched) or appends the -1 sentinel (unstitched). -/

/-- The first-face canonicalisation of `CreateStrips` (lines 973-1011):
reorder `tFirstFace` so the vertex unique to face 0 comes first and,
with a third face present, the shared vertex comes last.  The swaps are
the `std::swap` calls of the source. -/
def FirstFaceReorder (faces : List NvFaceInfo) : NvFaceInfo :=
  match faces with
  | [] => default
  | f0 :: rest =>
    match rest with
    | [] => f0
    | f1 :: rest2 =>
      let nUnique := GetUniqueVertexInB f1 f0
      let t1 :=
        if nUnique = f0.m_v1 then { f0 with m_v0 := f0.m_v1, m_v1 := f0.m_v0 }
        else if nUnique = f0.m_v2 then { f0 with m_v0 := f0.m_v2, m_v2 := f0.m_v0 }
        else f0
      match rest2 with
      | [] => t1
      | f2 :: _ =>
        if IsDegenerate f1 then
          if t1.m_v1 = f1.m_v1 then { t1 with m_v1 := t1.m_v2, m_v2 := t1.m_v1 }
          else t1
        else
          let s := GetSharedVertices f2 t1
          if s.1 = t1.m_v1 ∧ s.2 = -1 then { t1 with m_v1 := t1.m_v2, m_v2 := t1.m_v1 }
          else t1

/-- The per-face loop of `CreateStrips` (lines 1038-1059): for each
face after the first, emit the vertex unique to it, rolling the last
emitted triangle, or, at a degenerate, emit its `m_v2` and reload the
rolling triangle from the degenerate verbatim.  Returns the emitted
indices together with the final rolling triangle. -/
def EmitRest (tLast : NvFaceInfo) (faces : List NvFaceInfo) : List Int × NvFaceInfo :=
  match faces with
  | [] => ([], tLast)
  | fj :: rest =>
    let nUnique := GetUniqueVertexInB tLast fj
    if nUnique ≠ -1 then
      let tLast' : NvFaceInfo := { m_v0 := tLast.m_v1, m_v1 := tLast.m_v2, m_v2 := nUnique }
      let r := EmitRest tLast' rest
      (nUnique :: r.1, r.2)
    else
      let r := EmitRest fj rest
      (fj.m_v2 :: r.1, r.2)

/-- The first-face emission of `CreateStrips` (lines 1013-1032).
`lenSoFar` is `stripIndices.size() - accountForNegatives` before this
strip; the stitched parity check reads it after the first double-tap
push, hence the `+ 1`. -/
def EmitStripHead (stitch isFirst : Bool) (lenSoFar : Nat) (faces : List NvFaceInfo) :
    List Int :=
  let t := FirstFaceReorder faces
  let f0 := faces.headD default
  let tap :=
    if isFirst || !stitch then
      if !(IsCW f0 t.m_v0 t.m_v1) then [t.m_v0] else []
    else
      t.m_v0 ::
        (if NextIsCW ((lenSoFar : Int) + 1) != IsCW f0 t.m_v0 t.m_v1 then [t.m_v0] else [])
  tap ++ [t.m_v0, t.m_v1, t.m_v2]

/-- The indices one strip contributes before the bridge/sentinel. -/
def EmitStripRun (stitch isFirst : Bool) (lenSoFar : Nat) (faces : List NvFaceInfo) :
    List Int :=
  EmitStripHead stitch isFirst lenSoFar faces ++
    (EmitRest (FirstFaceReorder faces) (faces.drop 1)).1

/-- In unstitched mode the `i == 0 || !bStitchStrips` branch is taken
for every strip, so each strip's run is independent of its position:
this is the per-strip run of claims C3 and C4. -/
def StripRun (faces : List NvFaceInfo) : List Int :=
  EmitStripRun false true 0 faces

/-- The strip loop of `CreateStrips`: threads the emitted-so-far count
(net of sentinels, for the stitched parity check) and the separate
strip counter.  In stitched mode the bridge double-tap of the final
rolling triangle's `m_v2` is emitted between strips; in unstitched mode
every strip, the last included, is followed by the -1 sentinel.  The
source's final rolling-triangle update after the sentinel is dead state
and is not represented. -/
def CreateStripsGo (stitch : Bool) :
    List (List NvFaceInfo) → Bool → Nat → Nat → List Int × Nat
  | [], _, _, numSep => ([], numSep)
  | s :: rest, isFirst, lenSoFar, numSep =>
    let run := EmitStripRun stitch isFirst lenSoFar s
    let tail :=
      if stitch then
        (if rest.isEmpty then [] else [(EmitRest (FirstFaceReorder s) (s.drop 1)).2.m_v2])
      else [-1]
    let numSep' := if stitch then numSep else numSep + 1
    let r := CreateStripsGo stitch rest false (lenSoFar + run.length + tail.length) numSep'
    (run ++ tail ++ r.1, r.2)

/-- `NvStripifier::CreateStrips`: returns the emitted index stream and
`numSeparateStrips` (forced to 1 in stitched mode, as in the source's
final `if (bStitchStrips) numSeparateStrips = 1`).

Note on `lenSoFar`: in stitched mode no sentinel is ever pushed, so
`accountForNegatives` stays 0 and `stripIndices.size() -
accountForNegatives` is the plain emitted length; in unstitched mode
the value is never read. -/
def CreateStrips (allStrips : List (List NvFaceInfo)) (stitch : Bool) : List Int × Nat :=
  let r := CreateStripsGo stitch allStrips true 0 0
  (r.1, if stitch then 1 else r.2)

/-! The primitive-group packaging of `GenerateStrips` (NvTriStrip.cpp,
lines 161-233): one STRIP group per separate strip, sliced at the -1
sentinels in unstitched mode, and a trailing LIST group when the
leftover face list is non-empty. -/

inductive PrimType where
  | PT_STRIP
  | PT_LIST
deriving Repr, DecidableEq

structure PrimitiveGroup where
  ptype : PrimType
  indices : List Int
deriving Repr, DecidableEq

/-- The strip-slicing loop of `GenerateStrips`: `numSep` iterations; in
unstitched mode the group's indices run from the current location to
the next -1 (which is skipped); in stitched mode (`numSep` is then 1)
the whole stream is one group. -/
def SliceGroups (stitch : Bool) (whole : List Int) :
    Nat → List Int → List PrimitiveGroup
  | 0, _ => []
  | n + 1, remaining =>
    let run := if stitch then whole else remaining.takeWhile (fun x => x != -1)
    ⟨PrimType.PT_STRIP, run⟩ :: SliceGroups stitch whole n (remaining.drop (run.length + 1))

/-- The non-`listsOnly` output packaging of `GenerateStrips`: STRIP
groups from `CreateStrips` plus, when the leftover face list is
non-empty, one LIST group of its flattened triangles. -/
def GenerateGroups (strips : List (List NvFaceInfo)) (stitch : Bool)
    (tempFaces : List NvFaceInfo) : List PrimitiveGroup :=
  let cs := CreateStrips strips stitch
  SliceGroups stitch cs.1 cs.2 cs.1 ++
    (if tempFaces.isEmpty then []
     else [⟨PrimType.PT_LIST, tempFaces.flatMap (fun f => [f.m_v0, f.m_v1, f.m_v2])⟩])

/-! `NvStripifier::RemoveSmallStrips` (lines 855-916): strips shorter
than `minStripLength` are dissolved into a face list, which is then
reordered greedily by simulated cache hits. -/

/-- One step of the best-face scan of the reorder loop: skip a visited
index, otherwise keep it when its hit count strictly improves the best
so far. -/
def BestFaceStep (faces : List NvFaceInfo) (cache : List Int) (visited : List Bool)
    (acc : Int × Nat) (i : Nat) : Int × Nat :=
  if visited.getD i true then acc
  else
    let nh := CalcNumHitsFace cache (faces.getD i default)
    if acc.1 < nh then (nh, i) else acc

/-- The best-face scan of the reorder loop: iterate over all indices,
skip the visited ones, keep the first index that strictly improves
`bestNumHits` (initially -1).  Returns `none` exactly when the scan
found no unvisited face. -/
def BestFaceIndex (faces : List NvFaceInfo) (cache : List Int) (visited : List Bool) :
    Option Nat :=
  let r := (List.range faces.length).foldl (BestFaceStep faces cache visited)
    ((-1 : Int), 0)
  if r.1 = -1 then none else some r.2

/-- The `while(1)` reorder loop: pick the best face, mark it visited,
update the cache with it, append it to the output; stop when every face
is visited.  The fuel equals the face count, which bounds the number of
iterations. -/
def SelectFaces (faces : List NvFaceInfo) :
    List Int → List Bool → Nat → List NvFaceInfo
  | _, _, 0 => []
  | cache, visited, fuel + 1 =>
    match BestFaceIndex faces cache visited with
    | none => []
    | some b =>
      let f := faces.getD b default
      f :: SelectFaces faces (UpdateCacheFace cache f) (visited.set b true) fuel

/-- `NvStripifier::RemoveSmallStrips`: the source's single pass that
routes each strip into `allBigStrips` or dissolves it into
`tempFaceList` is expressed as the two filters (same strips, same
order); the greedy reorder then produces the final leftover list. -/
def RemoveSmallStrips (strips : List (List NvFaceInfo)) (minStripLength : Nat)
    (cacheSize : Nat) : List (List NvFaceInfo) × List NvFaceInfo :=
  let bigs := strips.filter (fun s => !(s.length < minStripLength))
  let tempFaceList := (strips.filter (fun s => s.length < minStripLength)).flatten
  (bigs,
    SelectFaces tempFaceList (NewCache cacheSize)
      (List.replicate tempFaceList.length false) tempFaceList.length)

/-! `NvStripifier::FindGoodResetPoint` (lines 298-352).  The probe is
the do-while loop: starting at `startPoint` it inspects faces in
circular order, returning the first face with `m_stripId < 0`,
stopping once the index wraps back to `startPoint`.  Because the body
of a do-while runs at least once, an empty face table makes the very
first access `faceInfos[startPoint]` out of bounds; the embedding
surfaces that as an `Except.error`. -/

def FindGoodResetPointLoop (faces : List NvFaceInfo) (startPoint : Nat) :
    Nat → Nat → Except String (Option NvFaceInfo)
  | _, 0 => Except.ok none
  | i, fuel + 1 =>
    match faces.get? i with
    | none => Except.error "FindGoodResetPoint: face index out of range"
    | some f =>
      if f.m_stripId < 0 then Except.ok (some f)
      else
        let i' := if i + 1 ≥ faces.length then 0 else i + 1
        if i' = startPoint then Except.ok none
        else FindGoodResetPointLoop faces startPoint i' fuel

/-- The full circular probe: fuel `faces.length + 1` is enough for one
complete lap. -/
def FindGoodResetPointProbe (faces : List NvFaceInfo) (startPoint : Nat) :
    Except String (Option NvFaceInfo) :=
  FindGoodResetPointLoop faces startPoint startPoint (faces.length + 1)

/-- The `done` flag of one Phase-1 round of `FindAllStrips` (lines
1589-1598): the sample loop stops and sets `done` as soon as a call to
`FindGoodResetPoint` yields no face.  `starts` lists the successive
start points the calls would use (their values come from the float
`meshJump` state, which is irrelevant to `done`). -/
def RoundDone (faces : List NvFaceInfo) : List Nat → Bool
  | [] => false
  | st :: rest =>
    match FindGoodResetPointProbe faces st with
    | Except.ok (some _) => RoundDone faces rest
    | _ => true

/-! Phase 3 of `NvStripifier::FindAllStrips` (lines 1672-1694) and
`NvStripifier::AvgStripSize` (lines 1551-1559).  The source computes
the score in `float`; the embedding uses exact rational arithmetic
(`sizeAccum` itself is an exact `ptrdiff_t` accumulation). -/

/-- Summary of an `NvStripInfo` as the scoring reads it: its face list
and its count of synthesized degenerates. -/
structure NvStripInfo where
  m_faces : List NvFaceInfo
  m_numDegenerates : Nat := 0
deriving Repr, DecidableEq, Inhabited

/-- `NvStripifier::AvgStripSize`: accumulate `m_faces.size() -
m_numDegenerates` over the strips and divide by the strip count. -/
def AvgStripSize (strips : List NvStripInfo) : ℚ :=
  let sizeAccum : Int :=
    strips.foldl (fun acc s => acc + (s.m_faces.length : Int) - (s.m_numDegenerates : Int)) 0
  (sizeAccum : ℚ) / (strips.length : ℚ)

/-- The best-experiment scan of Phase 3: `bestIndex`/`bestValue` start
at `(0, 0)` and an experiment takes over only on a strictly larger
value. -/
def BestLoop (i : Nat) (best : Nat × ℚ) : List ℚ → Nat × ℚ
  | [] => best
  | v :: rest => BestLoop (i + 1) (if best.2 < v then (i, v) else best) rest

/-- Index of the committed experiment for one round, as a function of
the experiments' scores. -/
def FindBestExperiment (values : List ℚ) : Nat :=
  (BestLoop 0 (0, 0) values).1

/-! `NvStripifier::BuildStripifyInfo` (lines 97-251) together with
`FindEdgeInfo` and `AlreadyExists`.  Edges live in one list in creation
order; the per-vertex chains of the source enumerate exactly the edges
whose `m_v0`/`m_v1` contain the vertex, so `FindEdgeInfo`'s chain walk
is the first edge matching the unordered pair.  Edge slots `m_face0`
and `m_face1` hold face serial numbers instead of pointers. -/

structure NvEdgeInfo where
  m_v0 : Int
  m_v1 : Int
  m_face0 : Option Nat := none
  m_face1 : Option Nat := none
deriving Repr, DecidableEq, Inhabited

/-- Whether an edge record stores the unordered pair `{v0, v1}`; this
is the match condition of `FindEdgeInfo`'s chain walk. -/
def EdgeMatch (e : NvEdgeInfo) (v0 v1 : Int) : Bool :=
  (e.m_v0 == v0 && e.m_v1 == v1) || (e.m_v0 == v1 && e.m_v1 == v0)

/-- First index satisfying the predicate, with running counter. -/
def FindIdxAux (p : NvEdgeInfo → Bool) : List NvEdgeInfo → Nat → Option Nat
  | [], _ => none
  | e :: rest, i => if p e then some i else FindIdxAux p rest (i + 1)

/-- `NvStripifier::FindEdgeInfo`: position of the edge storing the
unordered pair `{v0, v1}`, if present. -/
def FindEdgeInfo (edges : List NvEdgeInfo) (v0 v1 : Int) : Option Nat :=
  FindIdxAux (fun e => EdgeMatch e v0 v1) edges 0

/-- `NvStripifier::AlreadyExists`: a face with the identical ordered
vertex triple is already in the face table. -/
def AlreadyExists (faceInfo : NvFaceInfo) (faceInfos : List NvFaceInfo) : Bool :=
  faceInfos.any (fun f =>
    f.m_v0 == faceInfo.m_v0 && f.m_v1 == faceInfo.m_v1 && f.m_v2 == faceInfo.m_v2)

/-- Overwrite the `m_face1` slot of the edge at position `p`. -/
def SetFace1 (edges : List NvEdgeInfo) (p : Nat) (x : Option Nat) : List NvEdgeInfo :=
  edges.set p { edges.getD p default with m_face1 := x }

/-- One edge lookup of `BuildStripifyInfo` for the pair `{va, vb}` of
the face with serial number `fid`: absent edges are created with
`m_face0 := fid`; present edges with a free `m_face1` get `m_face1 :=
fid`; full edges are left unchanged (the source prints the non-manifold
warning).  Returns the new edge list, the found flag (drives
`bMightAlreadyExist`), the updated flag (`bFaceUpdated`), and the
touched position. -/
def UpdEdge (edges : List NvEdgeInfo) (va vb : Int) (fid : Nat) :
    List NvEdgeInfo × Bool × Bool × Nat :=
  match FindEdgeInfo edges va vb with
  | none => (edges ++ [{ m_v0 := va, m_v1 := vb, m_face0 := some fid }], false, false, 0)
  | some p =>
    if (edges.getD p default).m_face1.isSome then (edges, true, false, p)
    else (SetFace1 edges p (some fid), true, true, p)

/-- State of the topology build: the face table and edge list. -/
structure BuildState where
  faceInfos : List NvFaceInfo
  edges : List NvEdgeInfo
deriving Repr, DecidableEq

/-- One iteration of the triangle loop of `BuildStripifyInfo`:
degenerate triangles are skipped; otherwise the three edges are looked
up or created, and when all three pre-existed and an identical face is
already in the table, the face is dropped and each `m_face1` assignment
made for it this iteration is reset. -/
def BuildStep (s : BuildState) (fid : Nat) (v0 v1 v2 : Int) : BuildState :=
  if IsDegenerate3 v0 v1 v2 then s
  else
    let faceInfo : NvFaceInfo := { m_v0 := v0, m_v1 := v1, m_v2 := v2 }
    let r1 := UpdEdge s.edges v0 v1 fid
    let r2 := UpdEdge r1.1 v1 v2 fid
    let r3 := UpdEdge r2.1 v2 v0 fid
    let bMightAlreadyExist := r1.2.1 && r2.2.1 && r3.2.1
    if bMightAlreadyExist then
      if AlreadyExists faceInfo s.faceInfos then
        let e1 := if r1.2.2.1 then SetFace1 r3.1 r1.2.2.2 none else r3.1
        let e2 := if r2.2.2.1 then SetFace1 e1 r2.2.2.2 none else e1
        let e3 := if r3.2.2.1 then SetFace1 e2 r3.2.2.2 none else e2
        { faceInfos := s.faceInfos, edges := e3 }
      else { faceInfos := s.faceInfos ++ [faceInfo], edges := r3.1 }
    else { faceInfos := s.faceInfos ++ [faceInfo], edges := r3.1 }

/-! `RemapIndices` (NvTriStrip.cpp, lines 273-310).  `indexCache` is a
vector of `numVerts` slots initialised to the `size_t` sentinel
(modelled as `none`); indices are renumbered through it with a running
counter. -/

/-- Remap one group's index stream, threading the cache and counter. -/
def RemapList (cache : List (Option Nat)) (ctr : Nat) :
    List Nat → List (Option Nat) × Nat × List Nat
  | [] => (cache, ctr, [])
  | o :: rest =>
    match cache.getD o none with
    | some n =>
      let r := RemapList cache ctr rest
      (r.1, r.2.1, n :: r.2.2)
    | none =>
      let r := RemapList (cache.set o (some ctr)) (ctr + 1) rest
      (r.1, r.2.1, ctr :: r.2.2)

/-- Remap all groups in order, threading the cache and counter. -/
def RemapGroupsAux (cache : List (Option Nat)) (ctr : Nat) :
    List (List Nat) → List (Option Nat) × Nat × List (List Nat)
  | [] => (cache, ctr, [])
  | g :: gs =>
    let r := RemapList cache ctr g
    let r' := RemapGroupsAux r.1 r.2.1 gs
    (r'.1, r'.2.1, r.2.2 :: r'.2.2)

/-- `RemapIndices`: the remapped groups. -/
def RemapGroups (groups : List (List Nat)) (numVerts : Nat) : List (List Nat) :=
  (RemapGroupsAux (List.replicate numVerts none) 0 groups).2.2

/-- Specification-side first-touch order: the distinct indices of the
stream in order of first occurrence, appended after `seen`. -/
def FtFrom (seen : List Nat) : List Nat → List Nat
  | [] => seen
  | o :: rest => if o ∈ seen then FtFrom seen rest else FtFrom (seen ++ [o]) rest

/-- First-touch order of a stream. -/
def FirstTouch (l : List Nat) : List Nat :=
  FtFrom [] l

/-- Position of `o` in `l` (first occurrence; `l.length` when absent). -/
def IdxIn : List Nat → Nat → Nat
  | [], _ => 0
  | x :: xs, o => if x = o then 0 else IdxIn xs o + 1

/-- Proof-side invariant relating the `indexCache` state of
`RemapIndices` to the first-touch list `seen` of the indices processed
so far: the counter equals the number of distinct indices seen, and
slot `o` holds the first-touch position of `o`, or the sentinel when
`o` has not been seen. -/
def CacheCorr (numVerts : Nat) (cache : List (Option Nat)) (ctr : Nat)
    (seen : List Nat) : Prop :=
  cache.length = numVerts ∧ ctr = seen.length ∧
  ∀ o, o < numVerts →
    cache.getD o none = (if o ∈ seen then some (IdxIn seen o) else none)

/-! Helper lemmas. -/

theorem getD_replicate_neg (c i : Nat) (h : i < c) :
    (List.replicate c (-1 : Int)).getD i 0 = -1 := by
  rw [List.getD_eq_getElem _ _ (by simpa using h)]
  exact List.getElem_replicate ..

theorem set_getD_self (l : List NvTriStrip.NvEdgeInfo) (n : Nat) (h : n < l.length) :
    l.set n (l.getD n default) = l := by
  apply List.ext_getElem (by simp)
  intro i h1 h2
  by_cases hi : i = n
  · subst hi
    rw [List.getElem_set_self, List.getD_eq_getElem _ _ h]
  · rw [List.getElem_set_ne (by omega)]

theorem inCache_iff (cache : List Int) (v : Int) :
    InCache cache v = true ↔ v ∈ cache := by
  simp [InCache]

/-- C10 helper: a checked-absent insertion preserves cache
distinctness. -/
theorem distinct_addEntry (cache : List Int) (v : Int) (h : DistinctCache cache)
    (hv : InCache cache v = false) : DistinctCache (AddEntry cache v) := by
  unfold DistinctCache AddEntry at *
  rw [List.filter_cons]
  by_cases hneg : (v != -1) = true
  · rw [if_pos hneg]
    refine List.nodup_cons.mpr ⟨?_, ((List.dropLast_sublist cache).filter _).nodup h⟩
    intro hmem
    have hvc : v ∈ cache := (List.dropLast_sublist cache).subset (List.mem_of_mem_filter hmem)
    have := (inCache_iff cache v).mpr hvc
    rw [hv] at this
    exact Bool.false_ne_true this
  · rw [if_neg hneg]
    exact ((List.dropLast_sublist cache).filter _).nodup h

/-- C10 helper: one guarded insertion preserves cache distinctness. -/
theorem distinct_guarded_insert (cache : List Int) (v : Int) (h : DistinctCache cache) :
    DistinctCache (if InCache cache v then cache else AddEntry cache v) := by
  cases hv : InCache cache v
  · simpa using distinct_addEntry cache v h hv
  · simpa using h

theorem distinct_updateCacheFace (cache : List Int) (f : NvFaceInfo)
    (h : DistinctCache cache) : DistinctCache (UpdateCacheFace cache f) := by
  unfold UpdateCacheFace
  have h0 := distinct_guarded_insert cache f.m_v0 h
  have h1 := distinct_guarded_insert _ f.m_v1 h0
  exact distinct_guarded_insert _ f.m_v2 h1

theorem distinct_updateCacheStrip (cache : List Int) (faces : List NvFaceInfo)
    (h : DistinctCache cache) : DistinctCache (UpdateCacheStrip cache faces) := by
  unfold UpdateCacheStrip
  induction faces generalizing cache with
  | nil => exact h
  | cons f rest ih => exact ih _ (distinct_updateCacheFace cache f h)

theorem distinct_newCache (c : Nat) : DistinctCache (NewCache c) := by
  unfold DistinctCache NewCache
  induction c with
  | zero => simp
  | succ n ih => simp [List.replicate_succ, List.filter_cons]

/-! Claim theorems: C8, C10, C1. -/

/-- C8: a fresh `VertexCache` of capacity `c` has every slot equal to
-1; `AddEntry v` places `v` at slot 0 and shifts the previous content
of each slot `i < c - 1` to slot `i + 1` (so slot `c - 1`'s previous
content is evicted and the length is unchanged); `InCache v` holds
exactly when some slot holds `v`; `Clear` resets every slot to -1. -/
theorem C8_vertex_cache_model (c : Nat) (cache : List Int) (v : Int)
    (hlen : cache.length = c) (hc : 0 < c) :
    ((NewCache c).length = c ∧ ∀ i < c, (NewCache c).getD i 0 = -1) ∧
    ((AddEntry cache v).length = c ∧ (AddEntry cache v).getD 0 0 = v ∧
      ∀ i, i < c - 1 → (AddEntry cache v).getD (i + 1) 0 = cache.getD i 0) ∧
    (InCache cache v = true ↔ ∃ i, i < c ∧ cache.getD i 0 = v) ∧
    ((ClearCache cache).length = c ∧ ∀ i < c, (ClearCache cache).getD i 0 = -1) := by
  refine ⟨⟨by simp [NewCache], fun i hi => getD_replicate_neg c i hi⟩, ?_, ?_, ?_⟩
  · refine ⟨by simp [AddEntry, List.length_dropLast, hlen]; omega, rfl, ?_⟩
    intro i hi
    have hidrop : i < cache.dropLast.length := by
      simp [List.length_dropLast, hlen]; omega
    have hic : i < cache.length := by omega
    show cache.dropLast.getD i 0 = cache.getD i 0
    rw [List.getD_eq_getElem _ _ hidrop, List.getD_eq_getElem _ _ hic]
    exact List.getElem_dropLast ..
  · rw [inCache_iff, List.mem_iff_getElem]
    constructor
    · rintro ⟨i, hi, hv⟩
      exact ⟨i, by omega, by rw [List.getD_eq_getElem _ _ hi]; exact hv⟩
    · rintro ⟨i, hi, hv⟩
      have hi' : i < cache.length := by omega
      exact ⟨i, hi', by rw [List.getD_eq_getElem _ _ hi'] at hv; exact hv⟩
  · exact ⟨by simp [ClearCache, hlen], fun i hi => by
      simpa [ClearCache, hlen] using getD_replicate_neg c i hi⟩

/-- Witness for C8 at capacity 3 with cache `[5, 6, 7]` and entry 9. -/
theorem C8_vertex_cache_model_witness :
    ([5, 6, 7] : List Int).length = 3 ∧ 0 < 3 ∧
    (((NewCache 3).length = 3 ∧ ∀ i < 3, (NewCache 3).getD i 0 = -1) ∧
     ((AddEntry [5, 6, 7] 9).length = 3 ∧ (AddEntry [5, 6, 7] 9).getD 0 0 = 9 ∧
       ∀ i, i < 3 - 1 → (AddEntry [5, 6, 7] 9).getD (i + 1) 0 = ([5, 6, 7] : List Int).getD i 0) ∧
     (InCache [5, 6, 7] 9 = true ↔ ∃ i, i < 3 ∧ ([5, 6, 7] : List Int).getD i 0 = 9) ∧
     ((ClearCache [5, 6, 7]).length = 3 ∧ ∀ i < 3, (ClearCache [5, 6, 7]).getD i 0 = -1)) :=
  ⟨by decide, by decide, C8_vertex_cache_model 3 [5, 6, 7] 9 (by decide) (by decide)⟩

/-- C10: every cache-update path of the split-and-optimize phase
(`UpdateCacheFace`, used by the leftover-face reordering of
`RemoveSmallStrips`, and `UpdateCacheStrip`, used by the piece
reordering of `SplitUpStripsAndOptimize`) inserts a vertex only after
`InCache` reports it absent, so starting from a fresh cache the slots
always hold pairwise-distinct values apart from the -1 empty marker. -/
theorem C10_cache_distinct (c : Nat) (cache : List Int) (f : NvFaceInfo)
    (faces : List NvFaceInfo) :
    DistinctCache (NewCache c) ∧
    (DistinctCache cache → DistinctCache (UpdateCacheFace cache f)) ∧
    (DistinctCache cache → DistinctCache (UpdateCacheStrip cache faces)) ∧
    DistinctCache (faces.foldl UpdateCacheFace (NewCache c)) :=
  ⟨distinct_newCache c,
   distinct_updateCacheFace cache f,
   distinct_updateCacheStrip cache faces,
   distinct_updateCacheStrip (NewCache c) faces (distinct_newCache c)⟩

/-- Witness for C10 on a concrete cache and face list. -/
theorem C10_cache_distinct_witness :
    DistinctCache ([3, -1, -1] : List Int) ∧
    (DistinctCache (NewCache 3) ∧
     (DistinctCache [3, -1, -1] →
        DistinctCache (UpdateCacheFace [3, -1, -1] { m_v0 := 0, m_v1 := 1, m_v2 := 2 })) ∧
     (DistinctCache [3, -1, -1] →
        DistinctCache (UpdateCacheStrip [3, -1, -1] [{ m_v0 := 0, m_v1 := 1, m_v2 := 2 }])) ∧
     DistinctCache ([({ m_v0 := 0, m_v1 := 1, m_v2 := 2 } : NvFaceInfo)].foldl
        UpdateCacheFace (NewCache 3))) :=
  ⟨by unfold DistinctCache; decide,
   C10_cache_distinct 3 [3, -1, -1] { m_v0 := 0, m_v1 := 1, m_v2 := 2 }
     [{ m_v0 := 0, m_v1 := 1, m_v2 := 2 }]⟩

/-! Circular-probe lemmas for `FindGoodResetPoint` (claim C9). -/

theorem loop_some_unclaimed (faces : List NvFaceInfo) (startPoint : Nat) :
    ∀ (fuel i : Nat) (f : NvFaceInfo),
      FindGoodResetPointLoop faces startPoint i fuel = Except.ok (some f) →
      f ∈ faces ∧ f.m_stripId < 0 := by
  intro fuel
  induction fuel with
  | zero => intro i f h; simp [FindGoodResetPointLoop] at h
  | succ n ih =>
    intro i f h
    simp only [FindGoodResetPointLoop] at h
    cases hg : faces.get? i with
    | none => rw [hg] at h; simp at h
    | some g =>
      rw [hg] at h
      simp only at h
      by_cases hs : g.m_stripId < 0
      · rw [if_pos hs] at h
        have : g = f := by simpa using h
        subst this
        exact ⟨List.get?_mem hg, hs⟩
      · rw [if_neg hs] at h
        by_cases hw : (if i + 1 ≥ faces.length then 0 else i + 1) = startPoint
        · rw [if_pos hw] at h; simp at h
        · rw [if_neg hw] at h
          exact ih _ f h

theorem loop_no_error (faces : List NvFaceInfo) (startPoint : Nat) :
    ∀ (fuel i : Nat), i < faces.length →
      ∀ msg, FindGoodResetPointLoop faces startPoint i fuel ≠ Except.error msg := by
  intro fuel
  induction fuel with
  | zero => intro i hi msg h; simp [FindGoodResetPointLoop] at h
  | succ n ih =>
    intro i hi msg h
    simp only [FindGoodResetPointLoop] at h
    rw [List.get?_eq_getElem?, List.getElem?_eq_getElem hi] at h
    simp only at h
    by_cases hs : faces[i].m_stripId < 0
    · rw [if_pos hs] at h; simp at h
    · rw [if_neg hs] at h
      by_cases hw : (if i + 1 ≥ faces.length then 0 else i + 1) = startPoint
      · rw [if_pos hw] at h; simp at h
      · rw [if_neg hw] at h
        refine ih _ ?_ msg h
        split <;> omega

theorem loop_none_low (faces : List NvFaceInfo) (startPoint : Nat)
    (hsp : startPoint < faces.length) :
    ∀ (fuel i : Nat), i < startPoint → startPoint - i ≤ fuel →
      (FindGoodResetPointLoop faces startPoint i fuel = Except.ok none ↔
        ∀ j, i ≤ j → j < startPoint → 0 ≤ (faces.getD j default).m_stripId) := by
  intro fuel
  induction fuel with
  | zero => intro i hi hf; omega
  | succ n ih =>
    intro i hi hf
    have hlen : i < faces.length := by omega
    simp only [FindGoodResetPointLoop]
    rw [List.get?_eq_getElem?, List.getElem?_eq_getElem hlen]
    simp only
    have hgd : faces.getD i default = faces[i] := List.getD_eq_getElem _ _ hlen
    by_cases hs : faces[i].m_stripId < 0
    · rw [if_pos hs]
      constructor
      · intro h; simp at h
      · intro h
        exact absurd (hgd ▸ h i (le_refl i) hi) (by omega)
    · rw [if_neg hs]
      have hnl : ¬(i + 1 ≥ faces.length) := by omega
      rw [if_neg hnl]
      by_cases hw : i + 1 = startPoint
      · rw [if_pos hw]
        constructor
        · intro _ j hj1 hj2
          have : j = i := by omega
          subst this
          rw [hgd]; omega
        · intro _; rfl
      · rw [if_neg hw]
        rw [ih (i + 1) (by omega) (by omega)]
        constructor
        · intro h j hj1 hj2
          by_cases hji : j = i
          · subst hji; rw [hgd]; omega
          · exact h j (by omega) hj2
        · intro h j hj1 hj2
          exact h j (by omega) hj2

theorem loop_none_high (faces : List NvFaceInfo) (startPoint : Nat)
    (hsp : startPoint < faces.length) :
    ∀ (fuel i : Nat), startPoint ≤ i → i < faces.length →
      (faces.length - i) + startPoint ≤ fuel →
      (FindGoodResetPointLoop faces startPoint i fuel = Except.ok none ↔
        (∀ j, i ≤ j → j < faces.length → 0 ≤ (faces.getD j default).m_stripId) ∧
        (∀ j, j < startPoint → 0 ≤ (faces.getD j default).m_stripId)) := by
  intro fuel
  induction fuel with
  | zero => intro i h1 h2 hf; omega
  | succ n ih =>
    intro i h1 h2 hf
    simp only [FindGoodResetPointLoop]
    rw [List.get?_eq_getElem?, List.getElem?_eq_getElem h2]
    simp only
    have hgd : faces.getD i default = faces[i] := List.getD_eq_getElem _ _ h2
    by_cases hs : faces[i].m_stripId < 0
    · rw [if_pos hs]
      constructor
      · intro h; simp at h
      · intro h
        exact absurd (hgd ▸ h.1 i (le_refl i) h2) (by omega)
    · rw [if_neg hs]
      by_cases hlast : i + 1 ≥ faces.length
      · rw [if_pos hlast]
        by_cases hz : (0 : Nat) = startPoint
        · rw [if_pos hz]
          constructor
          · intro _
            refine ⟨?_, ?_⟩
            · intro j hj1 hj2
              have : j = i := by omega
              subst this
              rw [hgd]; omega
            · intro j hj; omega
          · intro _; rfl
        · rw [if_neg hz]
          rw [loop_none_low faces startPoint hsp n 0 (by omega) (by omega)]
          constructor
          · intro h
            refine ⟨?_, fun j hj => h j (by omega) hj⟩
            intro j hj1 hj2
            have : j = i := by omega
            subst this
            rw [hgd]; omega
          · intro h
            intro j hj1 hj2
            exact h.2 j hj2
      · rw [if_neg hlast]
        have hw : ¬(i + 1 = startPoint) := by omega
        rw [if_neg hw]
        rw [ih (i + 1) (by omega) (by omega) (by omega)]
        constructor
        · rintro ⟨ha, hb⟩
          refine ⟨?_, hb⟩
          intro j hj1 hj2
          by_cases hji : j = i
          · subst hji; rw [hgd]; omega
          · exact ha j (by omega) hj2
        · rintro ⟨ha, hb⟩
          exact ⟨fun j hj1 hj2 => ha j (by omega) hj2, hb⟩

theorem probe_none_iff (faces : List NvFaceInfo) (startPoint : Nat)
    (hsp : startPoint < faces.length) :
    FindGoodResetPointProbe faces startPoint = Except.ok none ↔
      ∀ f ∈ faces, 0 ≤ f.m_stripId := by
  unfold FindGoodResetPointProbe
  rw [loop_none_high faces startPoint hsp (faces.length + 1) startPoint
    (le_refl _) hsp (by omega)]
  constructor
  · rintro ⟨ha, hb⟩ f hf
    obtain ⟨j, hj, rfl⟩ := List.mem_iff_getElem.mp hf
    have hgd : faces.getD j default = faces[j] := List.getD_eq_getElem _ _ hj
    by_cases hjs : startPoint ≤ j
    · have := ha j hjs hj; rwa [hgd] at this
    · have := hb j (by omega); rwa [hgd] at this
  · intro h
    have hall : ∀ j, j < faces.length → 0 ≤ (faces.getD j default).m_stripId := by
      intro j hj
      rw [List.getD_eq_getElem _ _ hj]
      exact h _ (List.getElem_mem hj)
    exact ⟨fun j _ hj2 => hall j hj2, fun j hj => hall j (by omega)⟩

theorem roundDone_false (faces : List NvFaceInfo) (starts : List Nat)
    (hin : ∀ st ∈ starts, st < faces.length)
    (hall : ¬∀ f ∈ faces, 0 ≤ f.m_stripId) : RoundDone faces starts = false := by
  induction starts with
  | nil => rfl
  | cons st rest ih =>
    have hst : st < faces.length := hin st (List.mem_cons_self ..)
    have hnn : FindGoodResetPointProbe faces st ≠ Except.ok none := by
      intro h
      exact hall ((probe_none_iff faces st hst).mp h)
    simp only [RoundDone]
    cases hres : FindGoodResetPointProbe faces st with
    | error msg => exact absurd hres (loop_no_error faces st _ st hst msg)
    | ok r =>
      cases r with
      | none => exact absurd hres hnn
      | some f => exact ih (fun st' h' => hin st' (List.mem_cons_of_mem _ h'))

/-- C9: for a non-empty face table and an in-range start point, the
reset-point probe returns no face exactly when every face is
permanently claimed; otherwise it returns an unclaimed face; and the
`done` flag of a Phase-1 round of `FindAllStrips` is set exactly when
every face belongs to a committed strip.  (The start points come from
the float `meshJump` state; the probe's outcome kind is independent of
their values, so they are universally quantified here.) -/
theorem C9_reset_point_characterisation (faces : List NvFaceInfo) (startPoint : Nat)
    (starts : List Nat) (hsp : startPoint < faces.length)
    (hne2 : starts ≠ []) (hin : ∀ st ∈ starts, st < faces.length) :
    (FindGoodResetPointProbe faces startPoint = Except.ok none ↔
        ∀ f ∈ faces, 0 ≤ f.m_stripId) ∧
    (∀ f, FindGoodResetPointProbe faces startPoint = Except.ok (some f) →
        f ∈ faces ∧ f.m_stripId < 0) ∧
    (RoundDone faces starts = true ↔ ∀ f ∈ faces, 0 ≤ f.m_stripId) := by
  refine ⟨probe_none_iff faces startPoint hsp,
    fun f h => loop_some_unclaimed faces startPoint _ _ f h, ?_⟩
  by_cases hall : ∀ f ∈ faces, 0 ≤ f.m_stripId
  · cases starts with
    | nil => exact absurd rfl hne2
    | cons st rest =>
      have hst : st < faces.length := hin st (List.mem_cons_self ..)
      have hnone := (probe_none_iff faces st hst).mpr hall
      simp only [RoundDone, hnone]
      simpa using hall
  · rw [roundDone_false faces starts hin hall]
    constructor
    · intro h; exact absurd h (by simp)
    · intro h; exact absurd h hall

/-- Witness for C9: three faces, the middle one unclaimed. -/
theorem C9_reset_point_characterisation_witness :
    (1 : Nat) < 3 ∧
    ((FindGoodResetPointProbe
        [{ m_v0 := 0, m_v1 := 1, m_v2 := 2, m_stripId := 0 },
         { m_v0 := 1, m_v1 := 2, m_v2 := 3 },
         { m_v0 := 2, m_v1 := 3, m_v2 := 4, m_stripId := 1 }] 1 = Except.ok none ↔
        ∀ f ∈ [({ m_v0 := 0, m_v1 := 1, m_v2 := 2, m_stripId := 0 } : NvFaceInfo),
               { m_v0 := 1, m_v1 := 2, m_v2 := 3 },
               { m_v0 := 2, m_v1 := 3, m_v2 := 4, m_stripId := 1 }], 0 ≤ f.m_stripId) ∧
     (∀ f, FindGoodResetPointProbe
        [{ m_v0 := 0, m_v1 := 1, m_v2 := 2, m_stripId := 0 },
         { m_v0 := 1, m_v1 := 2, m_v2 := 3 },
         { m_v0 := 2, m_v1 := 3, m_v2 := 4, m_stripId := 1 }] 1 = Except.ok (some f) →
        f ∈ [({ m_v0 := 0, m_v1 := 1, m_v2 := 2, m_stripId := 0 } : NvFaceInfo),
             { m_v0 := 1, m_v1 := 2, m_v2 := 3 },
             { m_v0 := 2, m_v1 := 3, m_v2 := 4, m_stripId := 1 }] ∧ f.m_stripId < 0) ∧
     (RoundDone
        [{ m_v0 := 0, m_v1 := 1, m_v2 := 2, m_stripId := 0 },
         { m_v0 := 1, m_v1 := 2, m_v2 := 3 },
         { m_v0 := 2, m_v1 := 3, m_v2 := 4, m_stripId := 1 }] [1, 0] = true ↔
        ∀ f ∈ [({ m_v0 := 0, m_v1 := 1, m_v2 := 2, m_stripId := 0 } : NvFaceInfo),
               { m_v0 := 1, m_v1 := 2, m_v2 := 3 },
               { m_v0 := 2, m_v1 := 3, m_v2 := 4, m_stripId := 1 }], 0 ≤ f.m_stripId)) :=
  ⟨by decide,
   C9_reset_point_characterisation
     [{ m_v0 := 0, m_v1 := 1, m_v2 := 2, m_stripId := 0 },
      { m_v0 := 1, m_v1 := 2, m_v2 := 3 },
      { m_v0 := 2, m_v1 := 3, m_v2 := 4, m_stripId := 1 }] 1 [1, 0]
     (by decide) (by decide) (by decide)⟩

/-! Emitter lemmas (claims C3 and C4). -/

theorem getUniqueVertexInB_cases (a b : NvFaceInfo) :
    GetUniqueVertexInB a b = -1 ∨ GetUniqueVertexInB a b = b.m_v0 ∨
    GetUniqueVertexInB a b = b.m_v1 ∨ GetUniqueVertexInB a b = b.m_v2 := by
  unfold GetUniqueVertexInB
  split_ifs <;> simp

theorem firstFaceReorder_nonneg (faces : List NvFaceInfo)
    (h : ∀ f ∈ faces, FaceNonneg f) (hne : faces ≠ []) :
    FaceNonneg (FirstFaceReorder faces) := by
  cases faces with
  | nil => exact absurd rfl hne
  | cons f0 rest =>
    obtain ⟨ha, hb, hc⟩ : FaceNonneg f0 := h f0 (by simp)
    cases rest with
    | nil => exact ⟨ha, hb, hc⟩
    | cons f1 rest2 =>
      cases rest2 with
      | nil =>
        simp only [FirstFaceReorder, FaceNonneg]
        split_ifs <;> exact ⟨by simp_all, by simp_all, by simp_all⟩
      | cons f2 rest3 =>
        simp only [FirstFaceReorder, FaceNonneg]
        split_ifs <;> exact ⟨by simp_all, by simp_all, by simp_all⟩

theorem emitRest_cons_unique (tLast fj : NvFaceInfo) (rest : List NvFaceInfo)
    (h : GetUniqueVertexInB tLast fj ≠ -1) :
    EmitRest tLast (fj :: rest) =
      (GetUniqueVertexInB tLast fj ::
         (EmitRest ⟨tLast.m_v1, tLast.m_v2, GetUniqueVertexInB tLast fj, -1, -1, -1⟩ rest).1,
       (EmitRest ⟨tLast.m_v1, tLast.m_v2, GetUniqueVertexInB tLast fj, -1, -1, -1⟩ rest).2) := by
  simp only [EmitRest]
  rw [if_pos h]

theorem emitRest_cons_degen (tLast fj : NvFaceInfo) (rest : List NvFaceInfo)
    (h : ¬GetUniqueVertexInB tLast fj ≠ -1) :
    EmitRest tLast (fj :: rest) =
      (fj.m_v2 :: (EmitRest fj rest).1, (EmitRest fj rest).2) := by
  simp only [EmitRest]
  rw [if_neg h]

theorem emitRest_length (tLast : NvFaceInfo) (faces : List NvFaceInfo) :
    (EmitRest tLast faces).1.length = faces.length := by
  induction faces generalizing tLast with
  | nil => rfl
  | cons fj rest ih =>
    by_cases h : GetUniqueVertexInB tLast fj ≠ -1
    · rw [emitRest_cons_unique tLast fj rest h]
      simp [ih]
    · rw [emitRest_cons_degen tLast fj rest h]
      simp [ih]

theorem emitRest_nonneg (tLast : NvFaceInfo) (faces : List NvFaceInfo)
    (h1 : FaceNonneg tLast) (h2 : ∀ f ∈ faces, FaceNonneg f) :
    (∀ x ∈ (EmitRest tLast faces).1, 0 ≤ x) ∧ FaceNonneg (EmitRest tLast faces).2 := by
  induction faces generalizing tLast with
  | nil => exact ⟨by simp [EmitRest], h1⟩
  | cons fj rest ih =>
    have hfj : FaceNonneg fj := h2 fj (by simp)
    have hrest : ∀ f ∈ rest, FaceNonneg f := fun f hf => h2 f (by simp [hf])
    by_cases h : GetUniqueVertexInB tLast fj ≠ -1
    · have hnn : 0 ≤ GetUniqueVertexInB tLast fj := by
        rcases getUniqueVertexInB_cases tLast fj with hc | hc | hc | hc
        · exact absurd hc h
        · rw [hc]; exact hfj.1
        · rw [hc]; exact hfj.2.1
        · rw [hc]; exact hfj.2.2
      have ih' := ih ⟨tLast.m_v1, tLast.m_v2, GetUniqueVertexInB tLast fj, -1, -1, -1⟩
        ⟨h1.2.1, h1.2.2, hnn⟩ hrest
      rw [emitRest_cons_unique tLast fj rest h]
      refine ⟨?_, ih'.2⟩
      intro x hx
      simp only [List.mem_cons] at hx
      rcases hx with rfl | hx
      · exact hnn
      · exact ih'.1 x hx
    · have ih' := ih fj hfj hrest
      rw [emitRest_cons_degen tLast fj rest h]
      refine ⟨?_, ih'.2⟩
      intro x hx
      simp only [List.mem_cons] at hx
      rcases hx with rfl | hx
      · exact hfj.2.2
      · exact ih'.1 x hx

theorem emitStripHead_length (stitch isFirst : Bool) (n : Nat)
    (faces : List NvFaceInfo) : 3 ≤ (EmitStripHead stitch isFirst n faces).length := by
  unfold EmitStripHead
  split_ifs <;> simp

theorem emitStripHead_mem (stitch isFirst : Bool) (n : Nat) (faces : List NvFaceInfo) :
    ∀ x ∈ EmitStripHead stitch isFirst n faces,
      x = (FirstFaceReorder faces).m_v0 ∨ x = (FirstFaceReorder faces).m_v1 ∨
      x = (FirstFaceReorder faces).m_v2 := by
  intro x hx
  unfold EmitStripHead at hx
  split_ifs at hx <;> simp at hx <;> tauto

theorem emitStripHead_nonneg (stitch isFirst : Bool) (n : Nat)
    (faces : List NvFaceInfo) (h : ∀ f ∈ faces, FaceNonneg f) (hne : faces ≠ []) :
    ∀ x ∈ EmitStripHead stitch isFirst n faces, 0 ≤ x := by
  intro x hx
  obtain ⟨h1, h2, h3⟩ := firstFaceReorder_nonneg faces h hne
  rcases emitStripHead_mem stitch isFirst n faces x hx with rfl | rfl | rfl
  · exact h1
  · exact h2
  · exact h3

theorem stripRun_length (faces : List NvFaceInfo) (hne : faces ≠ []) :
    faces.length + 2 ≤ (StripRun faces).length := by
  unfold StripRun EmitStripRun
  rw [List.length_append, emitRest_length]
  have h3 := emitStripHead_length false true 0 faces
  cases faces with
  | nil => exact absurd rfl hne
  | cons f r => simp only [List.drop_one, List.tail_cons, List.length_cons]; omega

theorem stripRun_ne_nil (faces : List NvFaceInfo) (hne : faces ≠ []) :
    StripRun faces ≠ [] := by
  intro h
  have hlen := stripRun_length faces hne
  rw [h] at hlen
  simp at hlen

theorem stripRun_nonneg (faces : List NvFaceInfo) (hne : faces ≠ [])
    (h : ∀ f ∈ faces, FaceNonneg f) : ∀ x ∈ StripRun faces, 0 ≤ x := by
  intro x hx
  unfold StripRun EmitStripRun at hx
  rw [List.mem_append] at hx
  rcases hx with hx | hx
  · exact emitStripHead_nonneg false true 0 faces h hne x hx
  · have hdrop : ∀ f ∈ faces.drop 1, FaceNonneg f :=
      fun f hf => h f (List.drop_subset 1 faces hf)
    exact (emitRest_nonneg (FirstFaceReorder faces) (faces.drop 1)
      (firstFaceReorder_nonneg faces h hne) hdrop).1 x hx

theorem emitStripRun_unstitched (b : Bool) (n : Nat) (s : List NvFaceInfo) :
    EmitStripRun false b n s = StripRun s := by
  unfold StripRun EmitStripRun EmitStripHead
  simp

theorem createStripsGo_unstitched (strips : List (List NvFaceInfo)) :
    ∀ (b : Bool) (n sep : Nat),
      CreateStripsGo false strips b n sep =
        ((strips.map (fun s => StripRun s ++ [-1])).flatten, sep + strips.length) := by
  induction strips with
  | nil => intro b n sep; simp [CreateStripsGo]
  | cons s rest ih =>
    intro b n sep
    simp only [CreateStripsGo]
    rw [emitStripRun_unstitched, ih]
    simp only [Bool.false_eq_true, if_false, List.map_cons, List.flatten_cons,
      List.length_cons, Prod.mk.injEq]
    constructor
    · simp [List.append_assoc]
    · omega

theorem createStrips_unstitched (strips : List (List NvFaceInfo)) :
    CreateStrips strips false =
      ((strips.map (fun s => StripRun s ++ [-1])).flatten, strips.length) := by
  unfold CreateStrips
  rw [createStripsGo_unstitched]
  simp

theorem getLast_append_some (a b : List Int) (x : Int) (h : b.getLast? = some x) :
    (a ++ b).getLast? = some x := by
  rw [List.getLast?_append, h]
  rfl

theorem flatten_runs_getLast (L : List (List Int)) (hne : L ≠ []) :
    ((L.map (fun s => s ++ [(-1 : Int)])).flatten).getLast? = some (-1) := by
  induction L with
  | nil => exact absurd rfl hne
  | cons s rest ih =>
    cases rest with
    | nil => simp
    | cons r rs =>
      simp only [List.map_cons, List.flatten_cons]
      refine getLast_append_some _ _ _ ?_
      have ih' := ih (by simp)
      simpa only [List.map_cons, List.flatten_cons] using ih'

/-- C3 (counterexample): for the single strip of the single face
`(0, 1, 2)`, unstitched `CreateStrips` emits `[0, 1, 2, -1]`, whose
last element is the -1 sentinel, contradicting the claim that -1 is
never the last element of the stream. -/
theorem C3_counterexample_trailing_sentinel :
    (CreateStrips [[{ m_v0 := 0, m_v1 := 1, m_v2 := 2 }]] false).1 = [0, 1, 2, -1] ∧
    (CreateStrips [[{ m_v0 := 0, m_v1 := 1, m_v2 := 2 }]] false).1.getLast? =
      some (-1) := by
  constructor <;> rfl

/-- C3 (amended): in unstitched mode the stream of `CreateStrips` is
the concatenation of one run per strip, each run followed by one -1
sentinel.  Every run is non-empty and free of -1, so -1 is never the
first element of the stream and never occurs inside a strip's run; but
the sentinel also terminates the final strip, so for a non-empty strip
list the last element of the stream is -1 (this is where the original
claim fails). -/
theorem C3_amended_sentinel_runs (strips : List (List NvFaceInfo))
    (h1 : ∀ s ∈ strips, s ≠ [])
    (h2 : ∀ s ∈ strips, ∀ f ∈ s, FaceNonneg f) :
    (CreateStrips strips false).1 =
      (strips.map (fun s => StripRun s ++ [-1])).flatten ∧
    (∀ s ∈ strips, StripRun s ≠ [] ∧ ∀ x ∈ StripRun s, x ≠ -1) ∧
    (strips ≠ [] → (CreateStrips strips false).1.getLast? = some (-1)) := by
  refine ⟨by rw [createStrips_unstitched], ?_, ?_⟩
  · intro s hs
    refine ⟨stripRun_ne_nil s (h1 s hs), ?_⟩
    intro x hx
    have := stripRun_nonneg s (h1 s hs) (h2 s hs) x hx
    omega
  · intro hne
    rw [createStrips_unstitched]
    have hfl := flatten_runs_getLast (strips.map StripRun) (by simpa using hne)
    rw [List.map_map] at hfl
    simpa [Function.comp] using hfl

/-- Witness for C3 (amended) on two one-face strips. -/
theorem C3_amended_sentinel_runs_witness :
    ((CreateStrips [[{ m_v0 := 0, m_v1 := 1, m_v2 := 2 }],
        [{ m_v0 := 3, m_v1 := 4, m_v2 := 5 }]] false).1 =
      (([[{ m_v0 := 0, m_v1 := 1, m_v2 := 2 }],
         [{ m_v0 := 3, m_v1 := 4, m_v2 := 5 }]] :
           List (List NvFaceInfo)).map (fun s => StripRun s ++ [-1])).flatten ∧
     (∀ s ∈ ([[{ m_v0 := 0, m_v1 := 1, m_v2 := 2 }],
         [{ m_v0 := 3, m_v1 := 4, m_v2 := 5 }]] : List (List NvFaceInfo)),
        StripRun s ≠ [] ∧ ∀ x ∈ StripRun s, x ≠ -1) ∧
     (([[{ m_v0 := 0, m_v1 := 1, m_v2 := 2 }],
         [{ m_v0 := 3, m_v1 := 4, m_v2 := 5 }]] : List (List NvFaceInfo)) ≠ [] →
       (CreateStrips [[{ m_v0 := 0, m_v1 := 1, m_v2 := 2 }],
          [{ m_v0 := 3, m_v1 := 4, m_v2 := 5 }]] false).1.getLast? = some (-1))) :=
  C3_amended_sentinel_runs
    [[{ m_v0 := 0, m_v1 := 1, m_v2 := 2 }], [{ m_v0 := 3, m_v1 := 4, m_v2 := 5 }]]
    (by decide)
    (by intro s hs f hf; fin_cases hs <;> fin_cases hf <;>
      exact ⟨by decide, by decide, by decide⟩)

/-- C1 (code bug): on an empty index array the face table is empty,
`FindStartPoint` returns -1, and `FindGoodResetPoint` recomputes
`startPoint` as `(ptrdiff_t)(float(numFaces - 1) * meshJump) = 0`
(with `meshJump = 0`); its do-while body then runs once and indexes
`faceInfos[0]` on the empty face table — out of bounds, before any
primitive group could be produced. -/
theorem C1_empty_input_probe_out_of_bounds :
    FindGoodResetPointProbe [] 0 =
      Except.error "FindGoodResetPoint: face index out of range" := rfl

/-! Lemmas for `RemoveSmallStrips` and the group packaging (claim C4). -/

theorem calcNumHitsFace_nonneg (cache : List Int) (f : NvFaceInfo) :
    0 ≤ CalcNumHitsFace cache f := by
  unfold CalcNumHitsFace
  split_ifs <;> norm_num

theorem bestFaceStep_visited (faces : List NvFaceInfo) (cache : List Int)
    (visited : List Bool) (acc : Int × Nat) (i : Nat)
    (h : visited.getD i true = true) :
    BestFaceStep faces cache visited acc i = acc := by
  unfold BestFaceStep
  rw [h]
  simp

theorem bestFaceStep_take (faces : List NvFaceInfo) (cache : List Int)
    (visited : List Bool) (acc : Int × Nat) (i : Nat)
    (h : visited.getD i true = false)
    (hlt : acc.1 < CalcNumHitsFace cache (faces.getD i default)) :
    BestFaceStep faces cache visited acc i =
      (CalcNumHitsFace cache (faces.getD i default), i) := by
  unfold BestFaceStep
  rw [h]
  simp only [Bool.false_eq_true, if_false]
  rw [if_pos hlt]

theorem bestFaceStep_keep (faces : List NvFaceInfo) (cache : List Int)
    (visited : List Bool) (acc : Int × Nat) (i : Nat)
    (h : visited.getD i true = false)
    (hlt : ¬acc.1 < CalcNumHitsFace cache (faces.getD i default)) :
    BestFaceStep faces cache visited acc i = acc := by
  unfold BestFaceStep
  rw [h]
  simp only [Bool.false_eq_true, if_false]
  rw [if_neg hlt]

theorem bestFold_neg_iff (faces : List NvFaceInfo) (cache : List Int)
    (visited : List Bool) :
    ∀ (idxs : List Nat) (acc : Int × Nat),
      (idxs.foldl (BestFaceStep faces cache visited) acc).1 = -1 ↔
        (acc.1 = -1 ∧ ∀ i ∈ idxs, visited.getD i true = true) := by
  intro idxs
  induction idxs with
  | nil => intro acc; simp
  | cons i rest ih =>
    intro acc
    rw [List.foldl_cons]
    cases hv : visited.getD i true
    · have hnh := calcNumHitsFace_nonneg cache (faces.getD i default)
      by_cases hlt : acc.1 < CalcNumHitsFace cache (faces.getD i default)
      · rw [bestFaceStep_take faces cache visited acc i hv hlt, ih]
        simp only [List.mem_cons]
        constructor
        · intro h; exact absurd h.1 (by omega)
        · intro h
          have := h.2 i (Or.inl rfl)
          rw [hv] at this
          exact absurd this (by simp)
      · rw [bestFaceStep_keep faces cache visited acc i hv hlt, ih]
        simp only [List.mem_cons]
        have hpos : ¬acc.1 = -1 := by omega
        constructor
        · intro h; exact absurd h.1 hpos
        · intro h; exact absurd h.1 hpos
    · rw [bestFaceStep_visited faces cache visited acc i hv, ih]
      simp only [List.mem_cons]
      constructor
      · rintro ⟨h1, h2⟩
        refine ⟨h1, ?_⟩
        rintro j (rfl | hj)
        · exact hv
        · exact h2 j hj
      · rintro ⟨h1, h2⟩
        exact ⟨h1, fun j hj => h2 j (Or.inr hj)⟩

theorem bestFold_some_prop (faces : List NvFaceInfo) (cache : List Int)
    (visited : List Bool) :
    ∀ (idxs : List Nat) (acc : Int × Nat),
      (∀ i ∈ idxs, i < faces.length) →
      (acc.1 ≠ -1 → visited.getD acc.2 true = false ∧ acc.2 < faces.length) →
      (idxs.foldl (BestFaceStep faces cache visited) acc).1 ≠ -1 →
      visited.getD (idxs.foldl (BestFaceStep faces cache visited) acc).2 true = false ∧
        (idxs.foldl (BestFaceStep faces cache visited) acc).2 < faces.length := by
  intro idxs
  induction idxs with
  | nil => intro acc _ hacc h; exact hacc h
  | cons i rest ih =>
    intro acc hin hacc
    rw [List.foldl_cons]
    cases hv : visited.getD i true
    · by_cases hlt : acc.1 < CalcNumHitsFace cache (faces.getD i default)
      · rw [bestFaceStep_take faces cache visited acc i hv hlt]
        exact ih _ (fun j hj => hin j (by simp [hj]))
          (fun _ => ⟨hv, hin i (by simp)⟩)
      · rw [bestFaceStep_keep faces cache visited acc i hv hlt]
        exact ih _ (fun j hj => hin j (by simp [hj])) hacc
    · rw [bestFaceStep_visited faces cache visited acc i hv]
      exact ih _ (fun j hj => hin j (by simp [hj])) hacc

theorem bestFaceIndex_none_iff (faces : List NvFaceInfo) (cache : List Int)
    (visited : List Bool) :
    BestFaceIndex faces cache visited = none ↔
      ∀ i < faces.length, visited.getD i true = true := by
  unfold BestFaceIndex
  by_cases h : ((List.range faces.length).foldl (BestFaceStep faces cache visited)
      ((-1 : Int), 0)).1 = -1
  · rw [if_pos h]
    have := (bestFold_neg_iff faces cache visited (List.range faces.length)
      ((-1 : Int), 0)).mp h
    simp only [true_iff]
    intro i hi
    exact this.2 i (List.mem_range.mpr hi)
  · rw [if_neg h]
    simp only [reduceCtorEq, false_iff]
    intro hall
    exact h ((bestFold_neg_iff faces cache visited (List.range faces.length)
      ((-1 : Int), 0)).mpr ⟨rfl, fun i hi => hall i (List.mem_range.mp hi)⟩)

theorem bestFaceIndex_some_prop (faces : List NvFaceInfo) (cache : List Int)
    (visited : List Bool) (b : Nat)
    (h : BestFaceIndex faces cache visited = some b) :
    visited.getD b true = false ∧ b < faces.length := by
  unfold BestFaceIndex at h
  by_cases hr : ((List.range faces.length).foldl (BestFaceStep faces cache visited)
      ((-1 : Int), 0)).1 = -1
  · rw [if_pos hr] at h; cases h
  · rw [if_neg hr] at h
    have hb := bestFold_some_prop faces cache visited (List.range faces.length)
      ((-1 : Int), 0) (fun i hi => List.mem_range.mp hi) (fun hc => absurd rfl hc) hr
    have : b = ((List.range faces.length).foldl (BestFaceStep faces cache visited)
        ((-1 : Int), 0)).2 := by
      cases h; rfl
    rw [this]
    exact hb

theorem getD_set_true_ne (visited : List Bool) (b i : Nat) (h : i ≠ b) :
    (visited.set b true).getD i true = visited.getD i true := by
  by_cases hlen : i < visited.length
  · rw [List.getD_eq_getElem _ _ (by simpa using hlen), List.getD_eq_getElem _ _ hlen,
      List.getElem_set_ne (by omega)]
  · rw [List.getD_eq_default _ _ (by simp; omega), List.getD_eq_default _ _ (by omega)]

theorem filter_unvisited_set (visited : List Bool) (b : Nat) :
    ∀ (l : List Nat), l.Nodup → b ∈ l → visited.getD b true = false →
      l.filter (fun i => !(visited.set b true).getD i true) =
        (l.filter (fun i => !visited.getD i true)).erase b := by
  intro l
  induction l with
  | nil => intro _ hb; cases hb
  | cons a as ih =>
    intro hnd hb hunv
    have hblen : b < visited.length := by
      by_contra hge
      rw [List.getD_eq_default _ _ (by omega)] at hunv
      cases hunv
    by_cases hab : a = b
    · subst hab
      have hset : (visited.set a true).getD a true = true := by
        rw [List.getD_eq_getElem _ _ (by simpa using hblen)]
        exact List.getElem_set_self ..
      rw [List.filter_cons, List.filter_cons]
      rw [hset]
      simp only [Bool.not_true, Bool.false_eq_true, if_false]
      rw [hunv]
      simp only [Bool.not_false, if_true]
      rw [List.erase_cons_head]
      refine List.filter_congr ?_
      intro i hi
      have hne : i ≠ a := by
        intro hia
        subst hia
        exact (List.nodup_cons.mp hnd).1 hi
      congr 1
      exact getD_set_true_ne visited a i hne
    · have hset : (visited.set b true).getD a true = visited.getD a true :=
        getD_set_true_ne visited b a (fun h => hab h)
      have hbas : b ∈ as := by
        rcases List.mem_cons.mp hb with h | h
        · exact absurd h.symm hab
        · exact h
      rw [List.filter_cons, List.filter_cons, hset]
      cases hva : visited.getD a true
      · simp only [Bool.not_false, if_true]
        rw [List.erase_cons_tail (by simpa using hab)]
        rw [ih (List.nodup_cons.mp hnd).2 hbas hunv]
      · simp only [Bool.not_true, Bool.false_eq_true, if_false]
        rw [ih (List.nodup_cons.mp hnd).2 hbas hunv]

theorem selectFaces_perm (faces : List NvFaceInfo) :
    ∀ (fuel : Nat) (cache : List Int) (visited : List Bool),
      ((List.range faces.length).filter (fun i => !visited.getD i true)).length ≤ fuel →
      (SelectFaces faces cache visited fuel).Perm
        (((List.range faces.length).filter (fun i => !visited.getD i true)).map
          (fun i => faces.getD i default)) := by
  intro fuel
  induction fuel with
  | zero =>
    intro cache visited hlen
    have : (List.range faces.length).filter (fun i => !visited.getD i true) = [] :=
      List.length_eq_zero.mp (by omega)
    rw [this]
    simp [SelectFaces]
  | succ n ih =>
    intro cache visited hlen
    unfold SelectFaces
    cases hb : BestFaceIndex faces cache visited with
    | none =>
      have hall := (bestFaceIndex_none_iff faces cache visited).mp hb
      have : (List.range faces.length).filter (fun i => !visited.getD i true) = [] := by
        rw [List.filter_eq_nil_iff]
        intro i hi
        rw [hall i (List.mem_range.mp hi)]
        simp
      rw [this]
      simp
    | some b =>
      obtain ⟨hunv, hblt⟩ := bestFaceIndex_some_prop faces cache visited b hb
      have hbmem : b ∈ (List.range faces.length).filter (fun i => !visited.getD i true) := by
        rw [List.mem_filter]
        exact ⟨List.mem_range.mpr hblt, by rw [hunv]; simp⟩
      have hfs := filter_unvisited_set visited b (List.range faces.length)
        (List.nodup_range _) (List.mem_range.mpr hblt) hunv
      have hih := ih (UpdateCacheFace cache (faces.getD b default)) (visited.set b true)
        (by
          rw [hfs]
          have := List.length_erase_of_mem hbmem
          omega)
      rw [hfs] at hih
      refine List.Perm.trans (List.Perm.cons _ hih) ?_
      have hperm := List.perm_cons_erase hbmem
      have := hperm.map (fun i => faces.getD i default)
      rw [List.map_cons] at this
      exact this.symm

theorem map_getD_range (l : List NvFaceInfo) :
    (List.range l.length).map (fun i => l.getD i default) = l := by
  apply List.ext_getElem (by simp)
  intro i h1 h2
  simp only [List.getElem_map, List.getElem_range]
  exact List.getD_eq_getElem _ _ h2

/-- The two filters of the embedded `RemoveSmallStrips` described as
the source describes them: the kept strips and the dissolved faces. -/
theorem removeSmallStrips_spec (strips : List (List NvFaceInfo)) (minLen c : Nat) :
    (∀ s ∈ (RemoveSmallStrips strips minLen c).1, minLen ≤ s.length) ∧
    (RemoveSmallStrips strips minLen c).2.Perm
      ((strips.filter (fun s => s.length < minLen)).flatten) := by
  constructor
  · intro s hs
    unfold RemoveSmallStrips at hs
    have hmem := List.of_mem_filter hs
    simp at hmem
    omega
  · unfold RemoveSmallStrips
    have hperm := selectFaces_perm ((strips.filter (fun s => s.length < minLen)).flatten)
      ((strips.filter (fun s => s.length < minLen)).flatten.length) (NewCache c)
      (List.replicate ((strips.filter (fun s => s.length < minLen)).flatten.length) false)
      (by
        have : ((List.range ((strips.filter (fun s => s.length < minLen)).flatten.length)).filter
            (fun i => !(List.replicate ((strips.filter
              (fun s => s.length < minLen)).flatten.length) false).getD i true)).length ≤
            (List.range ((strips.filter (fun s => s.length < minLen)).flatten.length)).length :=
          List.length_filter_le _ _
        simpa using this)
    have hfilter : (List.range ((strips.filter
        (fun s => s.length < minLen)).flatten.length)).filter
        (fun i => !(List.replicate ((strips.filter
          (fun s => s.length < minLen)).flatten.length) false).getD i true) =
        List.range ((strips.filter (fun s => s.length < minLen)).flatten.length) := by
      rw [List.filter_eq_self]
      intro i hi
      have hi' := List.mem_range.mp hi
      rw [List.getD_eq_getElem _ _ (by rw [List.length_replicate]; exact hi')]
      simp [List.getElem_replicate]
    rw [hfilter, map_getD_range] at hperm
    exact hperm

theorem takeWhile_run (run t : List Int) (h : ∀ x ∈ run, x ≠ -1) :
    (run ++ (-1 : Int) :: t).takeWhile (fun x => x != -1) = run := by
  induction run with
  | nil => simp [List.takeWhile]
  | cons a as ih =>
    have ha : (a != -1) = true := by
      have := h a (by simp)
      simpa using this
    rw [List.cons_append, List.takeWhile_cons, ha]
    simp only [if_true]
    rw [ih (fun x hx => h x (by simp [hx]))]

theorem sliceGroups_unstitched (whole : List Int) :
    ∀ (runsList : List (List Int)),
      (∀ run ∈ runsList, ∀ x ∈ run, x ≠ -1) →
      SliceGroups false whole runsList.length
          ((runsList.map (fun s => s ++ [(-1 : Int)])).flatten) =
        runsList.map (fun run => ⟨PrimType.PT_STRIP, run⟩) := by
  intro runsList
  induction runsList with
  | nil => intro _; rfl
  | cons run rest ih =>
    intro h
    simp only [List.map_cons, List.flatten_cons, List.length_cons]
    unfold SliceGroups
    have hflat : (run ++ [(-1 : Int)]) ++ ((rest.map (fun s => s ++ [(-1 : Int)])).flatten) =
        run ++ (-1 : Int) :: ((rest.map (fun s => s ++ [(-1 : Int)])).flatten) := by
      simp
    rw [hflat, takeWhile_run run _ (h run (by simp))]
    simp only [Bool.false_eq_true, if_false]
    congr 1
    have hdrop : (run ++ (-1 : Int) ::
        ((rest.map (fun s => s ++ [(-1 : Int)])).flatten)).drop (run.length + 1) =
        (rest.map (fun s => s ++ [(-1 : Int)])).flatten := by
      simp [List.drop_append]
    rw [hdrop]
    exact ih (fun r hr x hx => h r (by simp [hr]) x hx)

theorem emitStripRun_length (stitch b : Bool) (n : Nat) (s : List NvFaceInfo)
    (hne : s ≠ []) : s.length + 2 ≤ (EmitStripRun stitch b n s).length := by
  unfold EmitStripRun
  rw [List.length_append, emitRest_length]
  have h3 := emitStripHead_length stitch b n s
  cases s with
  | nil => exact absurd rfl hne
  | cons f r => simp only [List.drop_one, List.tail_cons, List.length_cons]; omega

theorem createStrips_stitched_length (strips : List (List NvFaceInfo)) (s0 : List NvFaceInfo)
    (rest : List (List NvFaceInfo)) (hs : strips = s0 :: rest) (hne : s0 ≠ []) :
    s0.length + 2 ≤ (CreateStrips strips true).1.length := by
  subst hs
  unfold CreateStrips CreateStripsGo
  have hrun := emitStripRun_length true true 0 s0 hne
  simp only [List.length_append]
  omega

theorem generateGroups_strip_length (strips : List (List NvFaceInfo)) (stitch : Bool)
    (tf : List NvFaceInfo) (minLen : Nat)
    (h1 : ∀ s ∈ strips, s ≠ []) (h2 : ∀ s ∈ strips, ∀ f ∈ s, FaceNonneg f)
    (h3 : ∀ s ∈ strips, minLen ≤ s.length) :
    ∀ g ∈ GenerateGroups strips stitch tf, g.ptype = PrimType.PT_STRIP →
      g.indices ≠ [] → minLen + 2 ≤ g.indices.length := by
  intro g hg hstrip hne
  unfold GenerateGroups at hg
  rw [List.mem_append] at hg
  rcases hg with hg | hg
  · cases stitch with
    | false =>
      rw [createStrips_unstitched] at hg
      have hruns : ∀ run ∈ strips.map StripRun, ∀ x ∈ run, x ≠ -1 := by
        intro run hrun x hx
        obtain ⟨s, hs, rfl⟩ := List.mem_map.mp hrun
        have := stripRun_nonneg s (h1 s hs) (h2 s hs) x hx
        omega
      have hmm : (strips.map (fun s => StripRun s ++ [(-1 : Int)])).flatten =
          ((strips.map StripRun).map (fun r => r ++ [(-1 : Int)])).flatten := by
        rw [List.map_map]
        rfl
      have hlen : strips.length = (strips.map StripRun).length := by simp
      simp only [hmm, hlen] at hg
      rw [sliceGroups_unstitched _ (strips.map StripRun) hruns] at hg
      rw [List.map_map] at hg
      obtain ⟨s, hs, rfl⟩ := List.mem_map.mp hg
      simp only [Function.comp]
      have := stripRun_length s (h1 s hs)
      have := h3 s hs
      omega
    | true =>
      have hsep : (CreateStrips strips true).2 = 1 := rfl
      rw [hsep] at hg
      simp only [SliceGroups, if_true, List.mem_singleton] at hg
      subst hg
      cases strips with
      | nil =>
        have hempty : (CreateStrips ([] : List (List NvFaceInfo)) true).1 = [] := rfl
        exact absurd hempty hne
      | cons s0 rest =>
        have hlen := createStrips_stitched_length (s0 :: rest) s0 rest rfl
          (h1 s0 (by simp))
        have hm := h3 s0 (by simp)
        show minLen + 2 ≤ (CreateStrips (s0 :: rest) true).1.length
        omega
  · by_cases htf : tf.isEmpty
    · rw [htf] at hg
      simp at hg
    · rw [Bool.not_eq_true] at htf
      rw [if_neg (by simp [htf])] at hg
      simp only [List.mem_singleton] at hg
      subst hg
      cases hstrip

/-- C4 (counterexample): a single piece of one triangle `(0, 1, 2)`
with `minStripLength = 2` (cache size 10, the internal value for the
default configuration) is spilled into the leftover list, yet in
stitched mode the packaging still returns a STRIP group — with an
empty index array, hence 0 < 2 triangles — refuting the claim that
every STRIP group returned contains at least `minStripLength`
triangles.  (In a debug build `CreateStrips`' `assert(nStripCount > 0)`
fires instead.) -/
theorem C4_counterexample_empty_stitched_group :
    (RemoveSmallStrips [[{ m_v0 := 0, m_v1 := 1, m_v2 := 2 }]] 2 10).1 = [] ∧
    GenerateGroups (RemoveSmallStrips [[{ m_v0 := 0, m_v1 := 1, m_v2 := 2 }]] 2 10).1
        true (RemoveSmallStrips [[{ m_v0 := 0, m_v1 := 1, m_v2 := 2 }]] 2 10).2 =
      [⟨PrimType.PT_STRIP, []⟩, ⟨PrimType.PT_LIST, [0, 1, 2]⟩] := by
  constructor <;> rfl

/-- C4 (amended): after `RemoveSmallStrips`, every surviving strip
piece has at least `minStripLength` faces, and the leftover face list
is exactly (a cache-greedy reordering of) the faces of the dissolved
small pieces; every STRIP primitive group packaged from the surviving
pieces that has a non-empty index array encodes at least
`minStripLength` triangles (`indices.length - 2 ≥ minStripLength`).
The original claim fails only in stitched mode when every piece is
dissolved: one STRIP group with an empty index array is still
returned (see the counterexample). -/
theorem C4_min_strip_size (pieces : List (List NvFaceInfo)) (minLen c : Nat)
    (stitch : Bool) (tf : List NvFaceInfo)
    (h1 : ∀ s ∈ pieces, s ≠ []) (h2 : ∀ s ∈ pieces, ∀ f ∈ s, FaceNonneg f) :
    (∀ s ∈ (RemoveSmallStrips pieces minLen c).1, minLen ≤ s.length) ∧
    (RemoveSmallStrips pieces minLen c).2.Perm
      ((pieces.filter (fun s => s.length < minLen)).flatten) ∧
    (∀ g ∈ GenerateGroups (RemoveSmallStrips pieces minLen c).1 stitch tf,
      g.ptype = PrimType.PT_STRIP → g.indices ≠ [] →
        minLen + 2 ≤ g.indices.length) := by
  obtain ⟨hbig, hperm⟩ := removeSmallStrips_spec pieces minLen c
  refine ⟨hbig, hperm, ?_⟩
  have hsub : ∀ s ∈ (RemoveSmallStrips pieces minLen c).1, s ∈ pieces := by
    intro s hs
    unfold RemoveSmallStrips at hs
    exact List.mem_of_mem_filter hs
  exact generateGroups_strip_length (RemoveSmallStrips pieces minLen c).1 stitch tf minLen
    (fun s hs => h1 s (hsub s hs)) (fun s hs => h2 s (hsub s hs)) hbig

/-- Witness for C4 on two pieces, one kept and one dissolved. -/
theorem C4_min_strip_size_witness :
    ((∀ s ∈ (RemoveSmallStrips [[{ m_v0 := 0, m_v1 := 1, m_v2 := 2 },
          { m_v0 := 2, m_v1 := 1, m_v2 := 3 }], [{ m_v0 := 7, m_v1 := 8, m_v2 := 9 }]]
          2 10).1, 2 ≤ s.length) ∧
     (RemoveSmallStrips [[{ m_v0 := 0, m_v1 := 1, m_v2 := 2 },
          { m_v0 := 2, m_v1 := 1, m_v2 := 3 }], [{ m_v0 := 7, m_v1 := 8, m_v2 := 9 }]]
          2 10).2.Perm
       ((([[{ m_v0 := 0, m_v1 := 1, m_v2 := 2 }, { m_v0 := 2, m_v1 := 1, m_v2 := 3 }],
           [{ m_v0 := 7, m_v1 := 8, m_v2 := 9 }]] :
             List (List NvFaceInfo)).filter (fun s => s.length < 2)).flatten) ∧
     (∀ g ∈ GenerateGroups (RemoveSmallStrips [[{ m_v0 := 0, m_v1 := 1, m_v2 := 2 },
          { m_v0 := 2, m_v1 := 1, m_v2 := 3 }], [{ m_v0 := 7, m_v1 := 8, m_v2 := 9 }]]
          2 10).1 false [],
       g.ptype = PrimType.PT_STRIP → g.indices ≠ [] → 2 + 2 ≤ g.indices.length)) :=
  C4_min_strip_size
    [[{ m_v0 := 0, m_v1 := 1, m_v2 := 2 }, { m_v0 := 2, m_v1 := 1, m_v2 := 3 }],
     [{ m_v0 := 7, m_v1 := 8, m_v2 := 9 }]] 2 10 false []
    (by decide)
    (by intro s hs f hf; fin_cases hs <;> fin_cases hf <;>
      exact ⟨by decide, by decide, by decide⟩)

/-! Scoring lemmas for `AvgStripSize` and Phase 3 of `FindAllStrips`
(claim C6). -/

theorem sizeAccum_eq_sums (strips : List NvStripInfo) :
    ∀ acc : Int,
      strips.foldl (fun acc s =>
        acc + (s.m_faces.length : Int) - (s.m_numDegenerates : Int)) acc =
      acc + (strips.map (fun s => (s.m_faces.length : Int))).sum -
        (strips.map (fun s => (s.m_numDegenerates : Int))).sum := by
  induction strips with
  | nil => intro acc; simp
  | cons s rest ih =>
    intro acc
    rw [List.foldl_cons, ih]
    simp only [List.map_cons, List.sum_cons]
    ring

theorem avgStripSize_formula (strips : List NvStripInfo) :
    AvgStripSize strips =
      ((((strips.map (fun s => (s.m_faces.length : Int))).sum -
         (strips.map (fun s => (s.m_numDegenerates : Int))).sum : Int) : ℚ)) /
        (strips.length : ℚ) := by
  unfold AvgStripSize
  rw [sizeAccum_eq_sums]
  simp

theorem avgStripSize_ge_one (strips : List NvStripInfo) (hne : strips ≠ [])
    (hdeg : ∀ s ∈ strips, s.m_numDegenerates < s.m_faces.length) :
    1 ≤ AvgStripSize strips := by
  rw [avgStripSize_formula]
  have hsum : (strips.length : Int) ≤
      (strips.map (fun s => (s.m_faces.length : Int))).sum -
        (strips.map (fun s => (s.m_numDegenerates : Int))).sum := by
    clear hne
    induction strips with
    | nil => simp
    | cons s rest ih =>
      have hs := hdeg s (by simp)
      have hr := ih (fun t ht => hdeg t (by simp [ht]))
      simp only [List.map_cons, List.sum_cons, List.length_cons]
      push_cast
      omega
  have hlen : (0 : ℚ) < (strips.length : ℚ) := by
    have : 0 < strips.length := List.length_pos.mpr hne
    exact_mod_cast this
  rw [le_div_iff₀ hlen, one_mul]
  exact_mod_cast hsum

theorem bestLoop_spec (l : List ℚ) :
    ∀ (i : Nat) (b : Nat × ℚ),
      (BestLoop i b l = b ∧ ∀ v ∈ l, v ≤ b.2) ∨
      (∃ k, k < l.length ∧ BestLoop i b l = (i + k, l.getD k 0) ∧
        b.2 < l.getD k 0 ∧ (∀ v ∈ l, v ≤ l.getD k 0) ∧
        (∀ j, j < k → l.getD j 0 < l.getD k 0)) := by
  induction l with
  | nil => intro i b; left; exact ⟨rfl, by simp⟩
  | cons v rest ih =>
    intro i b
    unfold BestLoop
    by_cases hbv : b.2 < v
    · rw [if_pos hbv]
      rcases ih (i + 1) (i, v) with ⟨heq, hle⟩ | ⟨k, hk, heq, hlt, hle, hfirst⟩
      · right
        refine ⟨0, by simp, ?_, by simpa using hbv, ?_, by omega⟩
        · rw [heq]; simp
        · intro u hu
          rcases List.mem_cons.mp hu with rfl | hu
          · simp
          · simpa using hle u hu
      · right
        refine ⟨k + 1, by simpa using hk, ?_, ?_, ?_, ?_⟩
        · rw [heq]
          have : i + (k + 1) = i + 1 + k := by omega
          simp [this]
        · simp only [List.getD_cons_succ]
          calc b.2 < v := hbv
            _ < rest.getD k 0 := by simpa using hlt
        · intro u hu
          simp only [List.getD_cons_succ]
          rcases List.mem_cons.mp hu with rfl | hu
          · have : (i, u).2 < rest.getD k 0 := hlt
            simp only at this
            linarith
          · exact hle u hu
        · intro j hj
          cases j with
          | zero =>
            simp only [List.getD_cons_zero, List.getD_cons_succ]
            have : (i, v).2 < rest.getD k 0 := hlt
            simpa using this
          | succ j' =>
            simp only [List.getD_cons_succ]
            exact hfirst j' (by omega)
    · rw [if_neg hbv]
      rcases ih (i + 1) b with ⟨heq, hle⟩ | ⟨k, hk, heq, hlt, hle, hfirst⟩
      · left
        refine ⟨heq, ?_⟩
        intro u hu
        rcases List.mem_cons.mp hu with rfl | hu
        · linarith [not_lt.mp hbv]
        · exact hle u hu
      · right
        refine ⟨k + 1, by simpa using hk, ?_, ?_, ?_, ?_⟩
        · rw [heq]
          have : i + (k + 1) = i + 1 + k := by omega
          simp [this]
        · simpa using hlt
        · intro u hu
          simp only [List.getD_cons_succ]
          rcases List.mem_cons.mp hu with rfl | hu
          · have hub : u ≤ b.2 := not_lt.mp hbv
            linarith
          · exact hle u hu
        · intro j hj
          cases j with
          | zero =>
            simp only [List.getD_cons_zero, List.getD_cons_succ]
            have hub : v ≤ b.2 := not_lt.mp hbv
            have : b.2 < rest.getD k 0 := hlt
            linarith
          | succ j' =>
            simp only [List.getD_cons_succ]
            exact hfirst j' (by omega)

theorem findBestExperiment_spec (values : List ℚ) (hne : values ≠ [])
    (hpos : ∀ v ∈ values, 1 ≤ v) :
    FindBestExperiment values < values.length ∧
    (∀ v ∈ values, v ≤ values.getD (FindBestExperiment values) 0) ∧
    (∀ j, j < FindBestExperiment values →
      values.getD j 0 < values.getD (FindBestExperiment values) 0) := by
  unfold FindBestExperiment
  rcases bestLoop_spec values 0 (0, 0) with ⟨heq, hle⟩ | ⟨k, hk, heq, _, hle, hfirst⟩
  · cases values with
    | nil => exact absurd rfl hne
    | cons v rest =>
      have h1 := hpos v (by simp)
      have h2 := hle v (by simp)
      simp only at h2
      linarith
  · rw [heq]
    simp only [Nat.zero_add]
    exact ⟨hk, hle, hfirst⟩

/-- C6: each experiment's score is `AvgStripSize`, equal to
`(sum of face-list lengths - sum of synthesized-degenerate counts) /
numStrips`, and the committed experiment index of Phase 3 is the first
index attaining the maximal score (a strictly greater value is needed
to displace the current best, so the lowest index wins ties).  The
source computes the score in `float`; the embedding uses exact rational
arithmetic for the same integer accumulations, and the selection
property is proved for the whole list of score values. -/
theorem C6_experiment_scoring (experiments : List (List NvStripInfo))
    (hne : experiments ≠ [])
    (hok : ∀ e ∈ experiments, e ≠ [] ∧ ∀ s ∈ e, s.m_numDegenerates < s.m_faces.length) :
    (∀ e ∈ experiments, AvgStripSize e =
      ((((e.map (fun s => (s.m_faces.length : Int))).sum -
         (e.map (fun s => (s.m_numDegenerates : Int))).sum : Int) : ℚ)) /
        (e.length : ℚ)) ∧
    FindBestExperiment (experiments.map AvgStripSize) < experiments.length ∧
    (∀ e ∈ experiments, AvgStripSize e ≤
      (experiments.map AvgStripSize).getD
        (FindBestExperiment (experiments.map AvgStripSize)) 0) ∧
    (∀ j, j < FindBestExperiment (experiments.map AvgStripSize) →
      (experiments.map AvgStripSize).getD j 0 <
        (experiments.map AvgStripSize).getD
          (FindBestExperiment (experiments.map AvgStripSize)) 0) := by
  have hspec := findBestExperiment_spec (experiments.map AvgStripSize)
    (by simpa using hne)
    (by
      intro v hv
      obtain ⟨e, he, rfl⟩ := List.mem_map.mp hv
      exact avgStripSize_ge_one e (hok e he).1 (hok e he).2)
  refine ⟨fun e _ => avgStripSize_formula e, ?_, ?_, hspec.2.2⟩
  · have := hspec.1
    simpa using this
  · intro e he
    exact hspec.2.1 (AvgStripSize e) (List.mem_map.mpr ⟨e, he, rfl⟩)

/-- Witness for C6: two experiments with scores 1 and 2. -/
theorem C6_experiment_scoring_witness :
    (([[⟨[{ m_v0 := 0, m_v1 := 1, m_v2 := 2 }], 0⟩],
       [⟨[{ m_v0 := 0, m_v1 := 1, m_v2 := 2 },
          { m_v0 := 2, m_v1 := 1, m_v2 := 3 }], 0⟩]] : List (List NvStripInfo)) ≠ []) ∧
    ((∀ e ∈ ([[⟨[{ m_v0 := 0, m_v1 := 1, m_v2 := 2 }], 0⟩],
       [⟨[{ m_v0 := 0, m_v1 := 1, m_v2 := 2 },
          { m_v0 := 2, m_v1 := 1, m_v2 := 3 }], 0⟩]] : List (List NvStripInfo)),
        AvgStripSize e =
          ((((e.map (fun s => (s.m_faces.length : Int))).sum -
             (e.map (fun s => (s.m_numDegenerates : Int))).sum : Int) : ℚ)) /
            (e.length : ℚ)) ∧
     FindBestExperiment (([[⟨[{ m_v0 := 0, m_v1 := 1, m_v2 := 2 }], 0⟩],
       [⟨[{ m_v0 := 0, m_v1 := 1, m_v2 := 2 },
          { m_v0 := 2, m_v1 := 1, m_v2 := 3 }], 0⟩]] :
            List (List NvStripInfo)).map AvgStripSize) < 2 ∧
     (∀ e ∈ ([[⟨[{ m_v0 := 0, m_v1 := 1, m_v2 := 2 }], 0⟩],
       [⟨[{ m_v0 := 0, m_v1 := 1, m_v2 := 2 },
          { m_v0 := 2, m_v1 := 1, m_v2 := 3 }], 0⟩]] : List (List NvStripInfo)),
        AvgStripSize e ≤
          (([[⟨[{ m_v0 := 0, m_v1 := 1, m_v2 := 2 }], 0⟩],
             [⟨[{ m_v0 := 0, m_v1 := 1, m_v2 := 2 },
                { m_v0 := 2, m_v1 := 1, m_v2 := 3 }], 0⟩]] :
              List (List NvStripInfo)).map AvgStripSize).getD
            (FindBestExperiment (([[⟨[{ m_v0 := 0, m_v1 := 1, m_v2 := 2 }], 0⟩],
               [⟨[{ m_v0 := 0, m_v1 := 1, m_v2 := 2 },
                  { m_v0 := 2, m_v1 := 1, m_v2 := 3 }], 0⟩]] :
                List (List NvStripInfo)).map AvgStripSize)) 0) ∧
     (∀ j, j < FindBestExperiment (([[⟨[{ m_v0 := 0, m_v1 := 1, m_v2 := 2 }], 0⟩],
          [⟨[{ m_v0 := 0, m_v1 := 1, m_v2 := 2 },
             { m_v0 := 2, m_v1 := 1, m_v2 := 3 }], 0⟩]] :
            List (List NvStripInfo)).map AvgStripSize) →
        (([[⟨[{ m_v0 := 0, m_v1 := 1, m_v2 := 2 }], 0⟩],
           [⟨[{ m_v0 := 0, m_v1 := 1, m_v2 := 2 },
              { m_v0 := 2, m_v1 := 1, m_v2 := 3 }], 0⟩]] :
            List (List NvStripInfo)).map AvgStripSize).getD j 0 <
          (([[⟨[{ m_v0 := 0, m_v1 := 1, m_v2 := 2 }], 0⟩],
             [⟨[{ m_v0 := 0, m_v1 := 1, m_v2 := 2 },
                { m_v0 := 2, m_v1 := 1, m_v2 := 3 }], 0⟩]] :
              List (List NvStripInfo)).map AvgStripSize).getD
            (FindBestExperiment (([[⟨[{ m_v0 := 0, m_v1 := 1, m_v2 := 2 }], 0⟩],
               [⟨[{ m_v0 := 0, m_v1 := 1, m_v2 := 2 },
                  { m_v0 := 2, m_v1 := 1, m_v2 := 3 }], 0⟩]] :
                List (List NvStripInfo)).map AvgStripSize)) 0)) :=
  ⟨by decide,
   C6_experiment_scoring
     [[⟨[{ m_v0 := 0, m_v1 := 1, m_v2 := 2 }], 0⟩],
      [⟨[{ m_v0 := 0, m_v1 := 1, m_v2 := 2 },
         { m_v0 := 2, m_v1 := 1, m_v2 := 3 }], 0⟩]]
     (by decide)
     (by
       intro e he
       fin_cases he <;> exact ⟨by decide, by decide⟩)⟩

/-! First-touch remapping lemmas (claim C2). -/

theorem getD_set_ne_opt (l : List (Option Nat)) (b i : Nat) (x : Option Nat)
    (h : i ≠ b) : (l.set b x).getD i none = l.getD i none := by
  by_cases hlen : i < l.length
  · rw [List.getD_eq_getElem _ _ (by simpa using hlen), List.getD_eq_getElem _ _ hlen,
      List.getElem_set_ne (by omega)]
  · rw [List.getD_eq_default _ _ (by simp; omega), List.getD_eq_default _ _ (by omega)]

theorem getD_set_self_opt (l : List (Option Nat)) (b : Nat) (x : Option Nat)
    (h : b < l.length) : (l.set b x).getD b none = x := by
  rw [List.getD_eq_getElem _ _ (by simpa using h)]
  exact List.getElem_set_self ..

theorem idxIn_append_left (s t : List Nat) (o : Nat) (h : o ∈ s) :
    IdxIn (s ++ t) o = IdxIn s o := by
  induction s with
  | nil => cases h
  | cons a as ih =>
    by_cases hao : a = o
    · simp [IdxIn, hao]
    · have hmem : o ∈ as := by
        rcases List.mem_cons.mp h with h' | h'
        · exact absurd h'.symm hao
        · exact h'
      simp only [List.cons_append, IdxIn, hao, if_false, List.append_eq]
      rw [ih hmem]

theorem idxIn_append_self (s t : List Nat) (o : Nat) (h : o ∉ s) :
    IdxIn (s ++ o :: t) o = s.length := by
  induction s with
  | nil => simp [IdxIn]
  | cons a as ih =>
    have hao : ¬a = o := fun hc => h (by simp [hc])
    simp only [List.cons_append, IdxIn, hao, if_false, List.length_cons, List.append_eq]
    rw [ih (fun hc => h (by simp [hc]))]

theorem getD_idxIn (T : List Nat) (o : Nat) (h : o ∈ T) :
    T.getD (IdxIn T o) 0 = o := by
  induction T with
  | nil => cases h
  | cons a as ih =>
    by_cases hao : a = o
    · simp [IdxIn, hao]
    · have hmem : o ∈ as := by
        rcases List.mem_cons.mp h with h' | h'
        · exact absurd h'.symm hao
        · exact h'
      simp only [IdxIn, hao, if_false, List.getD_cons_succ]
      exact ih hmem

theorem ftFrom_cons_mem (seen : List Nat) (o : Nat) (rest : List Nat) (h : o ∈ seen) :
    FtFrom seen (o :: rest) = FtFrom seen rest := by
  simp only [FtFrom]
  rw [if_pos h]

theorem ftFrom_cons_new (seen : List Nat) (o : Nat) (rest : List Nat) (h : o ∉ seen) :
    FtFrom seen (o :: rest) = FtFrom (seen ++ [o]) rest := by
  simp only [FtFrom]
  rw [if_neg h]

theorem ftFrom_extends (l : List Nat) : ∀ seen : List Nat, ∃ t, FtFrom seen l = seen ++ t := by
  induction l with
  | nil => intro seen; exact ⟨[], by simp [FtFrom]⟩
  | cons o rest ih =>
    intro seen
    by_cases h : o ∈ seen
    · rw [ftFrom_cons_mem seen o rest h]
      exact ih seen
    · rw [ftFrom_cons_new seen o rest h]
      obtain ⟨t, ht⟩ := ih (seen ++ [o])
      exact ⟨o :: t, by simp [ht]⟩

theorem ftFrom_append (a : List Nat) :
    ∀ (b : List Nat) (seen : List Nat), FtFrom seen (a ++ b) = FtFrom (FtFrom seen a) b := by
  induction a with
  | nil => intro b seen; simp [FtFrom]
  | cons o rest ih =>
    intro b seen
    by_cases h : o ∈ seen
    · rw [List.cons_append, ftFrom_cons_mem seen o (rest ++ b) h,
        ftFrom_cons_mem seen o rest h, ih]
    · rw [List.cons_append, ftFrom_cons_new seen o (rest ++ b) h,
        ftFrom_cons_new seen o rest h, ih]

theorem mem_seen_ftFrom (l seen : List Nat) (o : Nat) (h : o ∈ seen) :
    o ∈ FtFrom seen l := by
  obtain ⟨t, ht⟩ := ftFrom_extends l seen
  rw [ht]
  exact List.mem_append_left t h

theorem mem_ftFrom (l : List Nat) :
    ∀ (seen : List Nat) (o : Nat), o ∈ l → o ∈ FtFrom seen l := by
  induction l with
  | nil => intro _ _ h; cases h
  | cons x rest ih =>
    intro seen o h
    by_cases hx : x ∈ seen
    · rw [ftFrom_cons_mem seen x rest hx]
      rcases List.mem_cons.mp h with rfl | h'
      · exact mem_seen_ftFrom rest seen o hx
      · exact ih seen o h'
    · rw [ftFrom_cons_new seen x rest hx]
      rcases List.mem_cons.mp h with rfl | h'
      · exact mem_seen_ftFrom rest (seen ++ [o]) o (by simp)
      · exact ih (seen ++ [x]) o h'

theorem remapList_cons_hit (cache : List (Option Nat)) (ctr o : Nat) (rest : List Nat)
    (n : Nat) (h : cache.getD o none = some n) :
    RemapList cache ctr (o :: rest) =
      ((RemapList cache ctr rest).1, (RemapList cache ctr rest).2.1,
        n :: (RemapList cache ctr rest).2.2) := by
  simp only [RemapList]
  rw [h]

theorem remapList_cons_miss (cache : List (Option Nat)) (ctr o : Nat) (rest : List Nat)
    (h : cache.getD o none = none) :
    RemapList cache ctr (o :: rest) =
      ((RemapList (cache.set o (some ctr)) (ctr + 1) rest).1,
        (RemapList (cache.set o (some ctr)) (ctr + 1) rest).2.1,
        ctr :: (RemapList (cache.set o (some ctr)) (ctr + 1) rest).2.2) := by
  simp only [RemapList]
  rw [h]

theorem cacheCorr_step (numVerts : Nat) (cache : List (Option Nat)) (ctr : Nat)
    (seen : List Nat) (o : Nat) (hcorr : CacheCorr numVerts cache ctr seen)
    (hlt : o < numVerts) (hnew : o ∉ seen) :
    CacheCorr numVerts (cache.set o (some ctr)) (ctr + 1) (seen ++ [o]) := by
  obtain ⟨hlen, hctr, hslots⟩ := hcorr
  refine ⟨by simp [hlen], by simp [hctr], ?_⟩
  intro o' ho'
  by_cases heq : o' = o
  · subst heq
    rw [getD_set_self_opt cache o' (some ctr) (by omega)]
    rw [if_pos (by simp)]
    rw [idxIn_append_self seen [] o' hnew, hctr]
  · rw [getD_set_ne_opt cache o o' (some ctr) heq, hslots o' ho']
    by_cases hmem : o' ∈ seen
    · rw [if_pos hmem, if_pos (by simp [hmem])]
      rw [idxIn_append_left seen [o] o' hmem]
    · rw [if_neg hmem, if_neg (by simp [hmem, heq])]

theorem remapList_spec (numVerts : Nat) (l : List Nat) :
    ∀ (cache : List (Option Nat)) (ctr : Nat) (seen T : List Nat),
      CacheCorr numVerts cache ctr seen →
      (∀ o ∈ l, o < numVerts) →
      (∃ u, T = FtFrom seen l ++ u) →
      (RemapList cache ctr l).2.2 = l.map (fun o => IdxIn T o) ∧
      CacheCorr numVerts (RemapList cache ctr l).1 (RemapList cache ctr l).2.1
        (FtFrom seen l) := by
  induction l with
  | nil =>
    intro cache ctr seen T hcorr _ _
    exact ⟨rfl, hcorr⟩
  | cons o rest ih =>
    intro cache ctr seen T hcorr hbound hT
    have hlt : o < numVerts := hbound o (by simp)
    have hslot := hcorr.2.2 o hlt
    by_cases hmem : o ∈ seen
    · rw [if_pos hmem] at hslot
      rw [remapList_cons_hit cache ctr o rest (IdxIn seen o) hslot]
      rw [ftFrom_cons_mem seen o rest hmem] at hT ⊢
      obtain ⟨hout, hcorr'⟩ := ih cache ctr seen T hcorr
        (fun x hx => hbound x (by simp [hx])) hT
      refine ⟨?_, hcorr'⟩
      rw [List.map_cons, hout]
      obtain ⟨u, hu⟩ := hT
      obtain ⟨t, ht⟩ := ftFrom_extends rest seen
      rw [hu, ht, List.append_assoc]
      rw [idxIn_append_left seen (t ++ u) o hmem]
    · rw [if_neg hmem] at hslot
      rw [remapList_cons_miss cache ctr o rest hslot]
      rw [ftFrom_cons_new seen o rest hmem] at hT ⊢
      have hcorr2 := cacheCorr_step numVerts cache ctr seen o hcorr hlt hmem
      obtain ⟨hout, hcorr'⟩ := ih (cache.set o (some ctr)) (ctr + 1) (seen ++ [o]) T
        hcorr2 (fun x hx => hbound x (by simp [hx])) hT
      refine ⟨?_, hcorr'⟩
      rw [List.map_cons, hout]
      obtain ⟨u, hu⟩ := hT
      obtain ⟨t, ht⟩ := ftFrom_extends rest (seen ++ [o])
      rw [hu, ht]
      have hshift : seen ++ [o] ++ t ++ u = seen ++ o :: (t ++ u) := by simp
      rw [hshift, idxIn_append_self seen (t ++ u) o hmem, hcorr.2.1]

theorem remapGroupsAux_spec (numVerts : Nat) (gs : List (List Nat)) :
    ∀ (cache : List (Option Nat)) (ctr : Nat) (seen T : List Nat),
      CacheCorr numVerts cache ctr seen →
      (∀ g ∈ gs, ∀ o ∈ g, o < numVerts) →
      (∃ u, T = FtFrom seen gs.flatten ++ u) →
      (RemapGroupsAux cache ctr gs).2.2 =
        gs.map (fun g => g.map (fun o => IdxIn T o)) ∧
      CacheCorr numVerts (RemapGroupsAux cache ctr gs).1
        (RemapGroupsAux cache ctr gs).2.1 (FtFrom seen gs.flatten) := by
  induction gs with
  | nil =>
    intro cache ctr seen T hcorr _ _
    exact ⟨rfl, hcorr⟩
  | cons g rest ih =>
    intro cache ctr seen T hcorr hbound hT
    have hflat : (g :: rest).flatten = g ++ rest.flatten := by simp
    rw [hflat, ftFrom_append g rest.flatten seen] at hT
    have hT1 : ∃ u, T = FtFrom seen g ++ u := by
      obtain ⟨u, hu⟩ := hT
      obtain ⟨t, ht⟩ := ftFrom_extends rest.flatten (FtFrom seen g)
      exact ⟨t ++ u, by rw [hu, ht, List.append_assoc]⟩
    obtain ⟨hout1, hcorr1⟩ := remapList_spec numVerts g cache ctr seen T hcorr
      (hbound g (by simp)) hT1
    obtain ⟨hout2, hcorr2⟩ := ih (RemapList cache ctr g).1 (RemapList cache ctr g).2.1
      (FtFrom seen g) T hcorr1 (fun g' hg' => hbound g' (by simp [hg'])) hT
    refine ⟨?_, ?_⟩
    · simp only [RemapGroupsAux, List.map_cons]
      rw [hout1, hout2]
    · simp only [RemapGroupsAux]
      rw [hflat, ftFrom_append g rest.flatten seen]
      exact hcorr2

theorem cacheCorr_init (numVerts : Nat) :
    CacheCorr numVerts (List.replicate numVerts none) 0 [] := by
  refine ⟨by simp, rfl, ?_⟩
  intro o ho
  rw [List.getD_eq_getElem _ _ (by simpa using ho)]
  simp [List.getElem_replicate]

/-- C2: `RemapIndices` renumbers indices in first-touch order: the
output is the input with every old index replaced by its position in
the first-touch list (so the k-th distinct old index encountered maps
to k-1, and every later occurrence maps to the same value), and
mapping each new index back through the first-touch list recovers the
original index streams exactly. -/
theorem C2_remap_first_touch (groups : List (List Nat)) (numVerts : Nat)
    (h : ∀ g ∈ groups, ∀ o ∈ g, o < numVerts) :
    RemapGroups groups numVerts =
      groups.map (fun g => g.map (fun o => IdxIn (FirstTouch groups.flatten) o)) ∧
    (RemapGroups groups numVerts).map
        (fun g => g.map (fun n => (FirstTouch groups.flatten).getD n 0)) = groups := by
  have hmain := remapGroupsAux_spec numVerts groups (List.replicate numVerts none) 0 []
    (FirstTouch groups.flatten) (cacheCorr_init numVerts) h ⟨[], by simp [FirstTouch]⟩
  have h1 : RemapGroups groups numVerts =
      groups.map (fun g => g.map (fun o => IdxIn (FirstTouch groups.flatten) o)) := by
    unfold RemapGroups
    exact hmain.1
  refine ⟨h1, ?_⟩
  have hg2 : ∀ g ∈ groups,
      ((g.map (fun o => IdxIn (FirstTouch groups.flatten) o)).map
        (fun n => (FirstTouch groups.flatten).getD n 0)) = g := by
    intro g hg
    rw [List.map_map]
    have hcong : ∀ o ∈ g, ((fun n => (FirstTouch groups.flatten).getD n 0) ∘
        (fun o => IdxIn (FirstTouch groups.flatten) o)) o = id o := by
      intro o ho
      simp only [Function.comp, id]
      exact getD_idxIn (FirstTouch groups.flatten) o
        (mem_ftFrom groups.flatten [] o (List.mem_flatten.mpr ⟨g, hg, ho⟩))
    rw [List.map_congr_left hcong, List.map_id]
  rw [h1]
  calc (groups.map (fun g => g.map (fun o => IdxIn (FirstTouch groups.flatten) o))).map
        (fun g => g.map (fun n => (FirstTouch groups.flatten).getD n 0))
      = groups.map (fun g =>
          (g.map (fun o => IdxIn (FirstTouch groups.flatten) o)).map
            (fun n => (FirstTouch groups.flatten).getD n 0)) := by
        rw [List.map_map]
        rfl
    _ = groups.map id := List.map_congr_left (fun g hg => hg2 g hg)
    _ = groups := List.map_id groups

/-- Witness for C2 on the groups `[[2, 0, 2], [1, 0]]` with three
vertices: the remap is `[[0, 1, 0], [2, 1]]` and the round trip
recovers the input. -/
theorem C2_remap_first_touch_witness :
    (∀ g ∈ ([[2, 0, 2], [1, 0]] : List (List Nat)), ∀ o ∈ g, o < 3) ∧
    (RemapGroups [[2, 0, 2], [1, 0]] 3 =
      ([[2, 0, 2], [1, 0]] : List (List Nat)).map
        (fun g => g.map (fun o => IdxIn (FirstTouch ([[2, 0, 2], [1, 0]] :
          List (List Nat)).flatten) o)) ∧
     (RemapGroups [[2, 0, 2], [1, 0]] 3).map
        (fun g => g.map (fun n => (FirstTouch ([[2, 0, 2], [1, 0]] :
          List (List Nat)).flatten).getD n 0)) = [[2, 0, 2], [1, 0]]) :=
  ⟨by decide, C2_remap_first_touch [[2, 0, 2], [1, 0]] 3 (by decide)⟩

/-! Topology-build lemmas (claim C7). -/

theorem findIdxAux_spec (p : NvEdgeInfo → Bool) (es : List NvEdgeInfo) :
    ∀ (i k : Nat), FindIdxAux p es i = some k →
      i ≤ k ∧ k - i < es.length ∧ p (es.getD (k - i) default) = true := by
  induction es with
  | nil => intro i k h; simp [FindIdxAux] at h
  | cons e rest ih =>
    intro i k h
    simp only [FindIdxAux] at h
    by_cases hp : p e
    · rw [if_pos hp] at h
      have : i = k := by simpa using h
      subst this
      simpa using hp
    · rw [if_neg hp] at h
      obtain ⟨h1, h2, h3⟩ := ih (i + 1) k h
      refine ⟨by omega, by simp; omega, ?_⟩
      have hki : k - i = (k - (i + 1)) + 1 := by omega
      rw [hki]
      simpa using h3

theorem findEdgeInfo_lt (es : List NvEdgeInfo) (a b : Int) (k : Nat)
    (h : FindEdgeInfo es a b = some k) :
    k < es.length ∧ EdgeMatch (es.getD k default) a b = true := by
  obtain ⟨h1, h2, h3⟩ := findIdxAux_spec (fun e => EdgeMatch e a b) es 0 k h
  refine ⟨by omega, ?_⟩
  have hk0 : k - 0 = k := by omega
  rw [hk0] at h3
  exact h3

theorem setFace1_length (es : List NvEdgeInfo) (q : Nat) (x : Option Nat) :
    (SetFace1 es q x).length = es.length := by
  simp [SetFace1]

theorem getD_setFace1_same (es : List NvEdgeInfo) (q : Nat) (x : Option Nat)
    (h : q < es.length) :
    (SetFace1 es q x).getD q default = { es.getD q default with m_face1 := x } := by
  unfold SetFace1
  rw [List.getD_eq_getElem _ _ (by simpa using h)]
  exact List.getElem_set_self ..

theorem getD_setFace1_ne (es : List NvEdgeInfo) (q r : Nat) (x : Option Nat)
    (h : r ≠ q) : (SetFace1 es q x).getD r default = es.getD r default := by
  unfold SetFace1
  by_cases hlen : r < es.length
  · rw [List.getD_eq_getElem _ _ (by simpa using hlen), List.getD_eq_getElem _ _ hlen,
      List.getElem_set_ne (by omega)]
  · rw [List.getD_eq_default _ _ (by simp; omega), List.getD_eq_default _ _ (by omega)]

theorem edgeMatch_setFace1 (e : NvEdgeInfo) (x : Option Nat) (a b : Int) :
    EdgeMatch { e with m_face1 := x } a b = EdgeMatch e a b := rfl

theorem findIdxAux_setFace1 (a b : Int) (es : List NvEdgeInfo) :
    ∀ (q : Nat) (x : Option Nat) (i : Nat),
      FindIdxAux (fun e => EdgeMatch e a b) (SetFace1 es q x) i =
        FindIdxAux (fun e => EdgeMatch e a b) es i := by
  induction es with
  | nil => intro q x i; rfl
  | cons e rest ih =>
    intro q x i
    cases q with
    | zero =>
      show FindIdxAux _ ((e :: rest).set 0 _) i = _
      simp only [List.getD_cons_zero, List.set_cons_zero]
      simp only [FindIdxAux, edgeMatch_setFace1]
    | succ q' =>
      show FindIdxAux _ ((e :: rest).set (q' + 1) _) i = _
      simp only [List.getD_cons_succ, List.set_cons_succ]
      simp only [FindIdxAux]
      by_cases hp : EdgeMatch e a b
      · rw [if_pos hp, if_pos hp]
      · rw [if_neg hp, if_neg hp]
        exact ih q' x (i + 1)

theorem findEdgeInfo_setFace1 (es : List NvEdgeInfo) (q : Nat) (x : Option Nat)
    (a b : Int) : FindEdgeInfo (SetFace1 es q x) a b = FindEdgeInfo es a b :=
  findIdxAux_setFace1 a b es q x 0

theorem findIdxAux_append_nomatch (p : NvEdgeInfo → Bool) (x : NvEdgeInfo)
    (hx : p x = false) (es : List NvEdgeInfo) :
    ∀ i, FindIdxAux p (es ++ [x]) i = FindIdxAux p es i := by
  induction es with
  | nil =>
    intro i
    simp only [List.nil_append, FindIdxAux, hx]
    simp
  | cons e rest ih =>
    intro i
    simp only [List.cons_append, FindIdxAux]
    by_cases hp : p e
    · rw [if_pos hp, if_pos hp]
    · rw [if_neg hp, if_neg hp]
      exact ih (i + 1)

theorem findEdgeInfo_append_nomatch (es : List NvEdgeInfo) (x : NvEdgeInfo)
    (a b : Int) (hx : EdgeMatch x a b = false) :
    FindEdgeInfo (es ++ [x]) a b = FindEdgeInfo es a b :=
  findIdxAux_append_nomatch (fun e => EdgeMatch e a b) x hx es 0

theorem edgeMatch_both (e : NvEdgeInfo) (a b c d : Int)
    (h1 : EdgeMatch e a b = true) (h2 : EdgeMatch e c d = true) :
    (a = c ∧ b = d) ∨ (a = d ∧ b = c) := by
  unfold EdgeMatch at h1 h2
  simp only [Bool.or_eq_true, Bool.and_eq_true, beq_iff_eq] at h1 h2
  rcases h1 with ⟨ha, hb⟩ | ⟨ha, hb⟩ <;> rcases h2 with ⟨hc, hd⟩ | ⟨hc, hd⟩ <;>
    [left; right; right; left] <;> constructor <;> omega

theorem setFace1_comm (es : List NvEdgeInfo) (p q : Nat) (x y : Option Nat)
    (h : p ≠ q) :
    SetFace1 (SetFace1 es q y) p x = SetFace1 (SetFace1 es p x) q y := by
  show (SetFace1 es q y).set p { (SetFace1 es q y).getD p default with m_face1 := x } =
    (SetFace1 es p x).set q { (SetFace1 es p x).getD q default with m_face1 := y }
  rw [getD_setFace1_ne es q p y h, getD_setFace1_ne es p q x (fun hc => h hc.symm)]
  unfold SetFace1
  exact List.set_comm _ _ es (fun hc => h hc.symm)

theorem nvEdgeInfo_face1_eta (e : NvEdgeInfo) (h : e.m_face1 = none) :
    { e with m_face1 := none } = e := by
  cases e
  simp_all

theorem setFace1_undo (es : List NvEdgeInfo) (p : Nat) (fid : Nat)
    (hlt : p < es.length) (hface : (es.getD p default).m_face1 = none) :
    SetFace1 (SetFace1 es p (some fid)) p none = es := by
  unfold SetFace1
  rw [List.set_set]
  have hget : (es.set p { es.getD p default with m_face1 := some fid }).getD p default =
      { es.getD p default with m_face1 := some fid } := by
    rw [List.getD_eq_getElem _ _ (by simpa using hlt)]
    exact List.getElem_set_self ..
  rw [hget]
  show es.set p { es.getD p default with m_face1 := none } = es
  rw [nvEdgeInfo_face1_eta _ hface]
  exact set_getD_self es p hlt

theorem undo3 (es : List NvEdgeInfo) (p1 p2 p3 fid : Nat) (u1 u2 u3 : Bool)
    (h12 : p1 ≠ p2) (h13 : p1 ≠ p3) (h23 : p2 ≠ p3)
    (hp1 : u1 = true → p1 < es.length ∧ (es.getD p1 default).m_face1 = none)
    (hp2 : u2 = true → p2 < es.length ∧ (es.getD p2 default).m_face1 = none)
    (hp3 : u3 = true → p3 < es.length ∧ (es.getD p3 default).m_face1 = none) :
    (let es1 := if u1 then SetFace1 es p1 (some fid) else es
     let es2 := if u2 then SetFace1 es1 p2 (some fid) else es1
     let es3 := if u3 then SetFace1 es2 p3 (some fid) else es2
     let f1 := if u1 then SetFace1 es3 p1 none else es3
     let f2 := if u2 then SetFace1 f1 p2 none else f1
     if u3 then SetFace1 f2 p3 none else f2) = es := by
  cases u1 <;> cases u2 <;> cases u3 <;>
    simp only [Bool.false_eq_true, eq_self_iff_true, if_true, if_false]
  · exact setFace1_undo es p3 fid (hp3 rfl).1 (hp3 rfl).2
  · exact setFace1_undo es p2 fid (hp2 rfl).1 (hp2 rfl).2
  · rw [setFace1_comm _ p2 p3 none (some fid) h23,
      setFace1_undo es p2 fid (hp2 rfl).1 (hp2 rfl).2,
      setFace1_undo es p3 fid (hp3 rfl).1 (hp3 rfl).2]
  · exact setFace1_undo es p1 fid (hp1 rfl).1 (hp1 rfl).2
  · rw [setFace1_comm _ p1 p3 none (some fid) h13,
      setFace1_undo es p1 fid (hp1 rfl).1 (hp1 rfl).2,
      setFace1_undo es p3 fid (hp3 rfl).1 (hp3 rfl).2]
  · rw [setFace1_comm _ p1 p2 none (some fid) h12,
      setFace1_undo es p1 fid (hp1 rfl).1 (hp1 rfl).2,
      setFace1_undo es p2 fid (hp2 rfl).1 (hp2 rfl).2]
  · rw [setFace1_comm (SetFace1 (SetFace1 es p1 (some fid)) p2 (some fid)) p1 p3
        none (some fid) h13,
      setFace1_comm (SetFace1 es p1 (some fid)) p1 p2 none (some fid) h12,
      setFace1_undo es p1 fid (hp1 rfl).1 (hp1 rfl).2,
      setFace1_comm (SetFace1 es p2 (some fid)) p2 p3 none (some fid) h23,
      setFace1_undo es p2 fid (hp2 rfl).1 (hp2 rfl).2,
      setFace1_undo es p3 fid (hp3 rfl).1 (hp3 rfl).2]

theorem isDeg3_false_iff (v0 v1 v2 : Int) (h : IsDegenerate3 v0 v1 v2 = false) :
    v0 ≠ v1 ∧ v0 ≠ v2 ∧ v1 ≠ v2 := by
  unfold IsDegenerate3 at h
  simp only [Bool.or_eq_false_iff, beq_eq_false_iff_ne, ne_eq] at h
  exact ⟨h.1.1, h.1.2, h.2⟩

theorem edgeMatch_new_false (va vb a b : Int) (fid : Nat)
    (h1 : ¬(va = a ∧ vb = b)) (h2 : ¬(va = b ∧ vb = a)) :
    EdgeMatch { m_v0 := va, m_v1 := vb, m_face0 := some fid } a b = false := by
  unfold EdgeMatch
  simp only [Bool.or_eq_false_iff, Bool.and_eq_false_iff, beq_eq_false_iff_ne, ne_eq]
  constructor
  · by_cases hva : va = a
    · right; intro hvb; exact h1 ⟨hva, hvb⟩
    · left; exact hva
  · by_cases hva : va = b
    · right; intro hvb; exact h2 ⟨hva, hvb⟩
    · left; exact hva

theorem updEdge_none (es : List NvEdgeInfo) (va vb : Int) (fid : Nat)
    (h : FindEdgeInfo es va vb = none) :
    UpdEdge es va vb fid =
      (es ++ [{ m_v0 := va, m_v1 := vb, m_face0 := some fid }], false, false, 0) := by
  unfold UpdEdge
  rw [h]

theorem updEdge_found_full (es : List NvEdgeInfo) (va vb : Int) (fid p : Nat)
    (h : FindEdgeInfo es va vb = some p)
    (hfull : (es.getD p default).m_face1.isSome = true) :
    UpdEdge es va vb fid = (es, true, false, p) := by
  unfold UpdEdge
  rw [h]
  simp only [hfull, if_true]

theorem updEdge_found_free (es : List NvEdgeInfo) (va vb : Int) (fid p : Nat)
    (h : FindEdgeInfo es va vb = some p)
    (hfree : (es.getD p default).m_face1.isSome = false) :
    UpdEdge es va vb fid = (SetFace1 es p (some fid), true, true, p) := by
  unfold UpdEdge
  rw [h]
  simp only [hfree, Bool.false_eq_true, if_false]

theorem updEdge_found_flag (es : List NvEdgeInfo) (va vb : Int) (fid p : Nat)
    (h : FindEdgeInfo es va vb = some p) : (UpdEdge es va vb fid).2.1 = true := by
  cases hfull : (es.getD p default).m_face1.isSome
  · rw [updEdge_found_free es va vb fid p h hfull]
  · rw [updEdge_found_full es va vb fid p h hfull]

theorem updEdge_preserves_lookup (es : List NvEdgeInfo) (va vb : Int) (fid : Nat)
    (a b : Int)
    (hnm : EdgeMatch { m_v0 := va, m_v1 := vb, m_face0 := some fid } a b = false) :
    FindEdgeInfo (UpdEdge es va vb fid).1 a b = FindEdgeInfo es a b := by
  cases hf : FindEdgeInfo es va vb with
  | none =>
    rw [updEdge_none es va vb fid hf]
    exact findEdgeInfo_append_nomatch es _ a b hnm
  | some p =>
    cases hfull : (es.getD p default).m_face1.isSome
    · rw [updEdge_found_free es va vb fid p hf hfull]
      exact findEdgeInfo_setFace1 es p (some fid) a b
    · rw [updEdge_found_full es va vb fid p hf hfull]

/-- C7: during topology construction, a non-degenerate input triangle
whose three edge lookups all find pre-existing edges and whose ordered
vertex triple is already in the face table is dropped entirely — the
face is not appended and every `m_face1` slot assignment made for it
in that iteration is reset, leaving the build state exactly unchanged;
in every other non-degenerate case the face is appended to the face
table. -/
theorem C7_duplicate_face_undo (s : BuildState) (fid : Nat) (v0 v1 v2 : Int)
    (hdeg : IsDegenerate3 v0 v1 v2 = false) :
    ((FindEdgeInfo s.edges v0 v1 ≠ none ∧ FindEdgeInfo s.edges v1 v2 ≠ none ∧
      FindEdgeInfo s.edges v2 v0 ≠ none ∧
      AlreadyExists { m_v0 := v0, m_v1 := v1, m_v2 := v2 } s.faceInfos = true) →
      BuildStep s fid v0 v1 v2 = s) ∧
    ((FindEdgeInfo s.edges v0 v1 = none ∨ FindEdgeInfo s.edges v1 v2 = none ∨
      FindEdgeInfo s.edges v2 v0 = none ∨
      AlreadyExists { m_v0 := v0, m_v1 := v1, m_v2 := v2 } s.faceInfos = false) →
      (BuildStep s fid v0 v1 v2).faceInfos =
        s.faceInfos ++ [{ m_v0 := v0, m_v1 := v1, m_v2 := v2 }]) := by
  obtain ⟨hd01, hd02, hd12⟩ := isDeg3_false_iff v0 v1 v2 hdeg
  have hnm12 : EdgeMatch { m_v0 := v0, m_v1 := v1, m_face0 := some fid } v1 v2 = false :=
    edgeMatch_new_false v0 v1 v1 v2 fid (fun hc => hd01 hc.1) (fun hc => hd02 hc.1)
  have hnm13 : EdgeMatch { m_v0 := v0, m_v1 := v1, m_face0 := some fid } v2 v0 = false :=
    edgeMatch_new_false v0 v1 v2 v0 fid (fun hc => hd02 hc.1) (fun hc => hd12 hc.2)
  have hnm23 : EdgeMatch { m_v0 := v1, m_v1 := v2, m_face0 := some fid } v2 v0 = false :=
    edgeMatch_new_false v1 v2 v2 v0 fid (fun hc => hd12 hc.1) (fun hc => hd01 hc.1.symm)
  constructor
  · rintro ⟨h1, h2, h3, hdup⟩
    obtain ⟨p1, hf1⟩ := Option.ne_none_iff_exists'.mp h1
    obtain ⟨p2, hf2⟩ := Option.ne_none_iff_exists'.mp h2
    obtain ⟨p3, hf3⟩ := Option.ne_none_iff_exists'.mp h3
    obtain ⟨hp1lt, hm1⟩ := findEdgeInfo_lt s.edges v0 v1 p1 hf1
    obtain ⟨hp2lt, hm2⟩ := findEdgeInfo_lt s.edges v1 v2 p2 hf2
    obtain ⟨hp3lt, hm3⟩ := findEdgeInfo_lt s.edges v2 v0 p3 hf3
    have d12 : p1 ≠ p2 := by
      intro hc
      subst hc
      rcases edgeMatch_both _ v0 v1 v1 v2 hm1 hm2 with ⟨ha, hb⟩ | ⟨ha, hb⟩
      · exact hd01 ha
      · exact hd02 ha
    have d13 : p1 ≠ p3 := by
      intro hc
      subst hc
      rcases edgeMatch_both _ v0 v1 v2 v0 hm1 hm3 with ⟨ha, hb⟩ | ⟨ha, hb⟩
      · exact hd02 ha
      · exact hd12 hb
    have d23 : p2 ≠ p3 := by
      intro hc
      subst hc
      rcases edgeMatch_both _ v1 v2 v2 v0 hm2 hm3 with ⟨ha, hb⟩ | ⟨ha, hb⟩
      · exact hd12 ha
      · exact hd01 ha.symm
    have hr1 : UpdEdge s.edges v0 v1 fid =
        ((if !(s.edges.getD p1 default).m_face1.isSome then
            SetFace1 s.edges p1 (some fid) else s.edges),
          true, !(s.edges.getD p1 default).m_face1.isSome, p1) := by
      cases hiso : (s.edges.getD p1 default).m_face1.isSome
      · rw [updEdge_found_free s.edges v0 v1 fid p1 hf1 hiso]
        simp
      · rw [updEdge_found_full s.edges v0 v1 fid p1 hf1 hiso]
        simp
    set E1 : List NvEdgeInfo := if !(s.edges.getD p1 default).m_face1.isSome then
      SetFace1 s.edges p1 (some fid) else s.edges with hE1def
    have hE1getD : ∀ r : Nat, r ≠ p1 → E1.getD r default = s.edges.getD r default := by
      intro r hr
      rw [hE1def]
      cases (s.edges.getD p1 default).m_face1.isSome
      · simp only [Bool.not_false, if_true]
        exact getD_setFace1_ne s.edges p1 r (some fid) hr
      · simp
    have hE1look : FindEdgeInfo E1 v1 v2 = some p2 := by
      rw [hE1def]
      cases (s.edges.getD p1 default).m_face1.isSome
      · simp only [Bool.not_false, if_true]
        rw [findEdgeInfo_setFace1]
        exact hf2
      · simpa using hf2
    have hr2 : UpdEdge E1 v1 v2 fid =
        ((if !(s.edges.getD p2 default).m_face1.isSome then
            SetFace1 E1 p2 (some fid) else E1),
          true, !(s.edges.getD p2 default).m_face1.isSome, p2) := by
      cases hiso : (s.edges.getD p2 default).m_face1.isSome
      · rw [updEdge_found_free E1 v1 v2 fid p2 hE1look
            (by rw [hE1getD p2 (fun hc => d12 hc.symm)]; exact hiso)]
        simp [hiso]
      · rw [updEdge_found_full E1 v1 v2 fid p2 hE1look
            (by rw [hE1getD p2 (fun hc => d12 hc.symm)]; exact hiso)]
        simp [hiso]
    set E2 : List NvEdgeInfo := if !(s.edges.getD p2 default).m_face1.isSome then
      SetFace1 E1 p2 (some fid) else E1 with hE2def
    have hE2getD : ∀ r : Nat, r ≠ p1 → r ≠ p2 → E2.getD r default = s.edges.getD r default := by
      intro r hr1' hr2'
      rw [hE2def]
      cases (s.edges.getD p2 default).m_face1.isSome
      · simp only [Bool.not_false, if_true]
        rw [getD_setFace1_ne E1 p2 r (some fid) hr2']
        exact hE1getD r hr1'
      · simp only [Bool.not_true, Bool.false_eq_true, if_false]
        exact hE1getD r hr1'
    have hE2look : FindEdgeInfo E2 v2 v0 = some p3 := by
      rw [hE2def]
      have hE1look3 : FindEdgeInfo E1 v2 v0 = some p3 := by
        rw [hE1def]
        cases (s.edges.getD p1 default).m_face1.isSome
        · simp only [Bool.not_false, if_true]
          rw [findEdgeInfo_setFace1]
          exact hf3
        · simpa using hf3
      cases (s.edges.getD p2 default).m_face1.isSome
      · simp only [Bool.not_false, if_true]
        rw [findEdgeInfo_setFace1]
        exact hE1look3
      · simpa using hE1look3
    have hr3 : UpdEdge E2 v2 v0 fid =
        ((if !(s.edges.getD p3 default).m_face1.isSome then
            SetFace1 E2 p3 (some fid) else E2),
          true, !(s.edges.getD p3 default).m_face1.isSome, p3) := by
      cases hiso : (s.edges.getD p3 default).m_face1.isSome
      · rw [updEdge_found_free E2 v2 v0 fid p3 hE2look
            (by rw [hE2getD p3 (fun hc => d13 hc.symm) (fun hc => d23 hc.symm)]; exact hiso)]
        simp [hiso]
      · rw [updEdge_found_full E2 v2 v0 fid p3 hE2look
            (by rw [hE2getD p3 (fun hc => d13 hc.symm) (fun hc => d23 hc.symm)]; exact hiso)]
        simp [hiso]
    have hundo := undo3 s.edges p1 p2 p3 fid
      (!(s.edges.getD p1 default).m_face1.isSome)
      (!(s.edges.getD p2 default).m_face1.isSome)
      (!(s.edges.getD p3 default).m_face1.isSome)
      d12 d13 d23
      (fun hu => ⟨hp1lt, by
        cases ho : (s.edges.getD p1 default).m_face1
        · rfl
        · rw [ho] at hu; simp at hu⟩)
      (fun hu => ⟨hp2lt, by
        cases ho : (s.edges.getD p2 default).m_face1
        · rfl
        · rw [ho] at hu; simp at hu⟩)
      (fun hu => ⟨hp3lt, by
        cases ho : (s.edges.getD p3 default).m_face1
        · rfl
        · rw [ho] at hu; simp at hu⟩)
    have hfinal : ∀ E : List NvEdgeInfo, E = s.edges →
        ({ faceInfos := s.faceInfos, edges := E } : BuildState) = s := by
      intro E hE
      rw [hE]
    unfold BuildStep
    rw [hdeg]
    try dsimp only
    rw [hr1]
    try dsimp only
    rw [hr2]
    try dsimp only
    rw [hr3]
    try dsimp only
    rw [hdup]
    try dsimp only
    exact hfinal _ hundo
  · intro hother
    by_cases hf1n : FindEdgeInfo s.edges v0 v1 = none
    · have hr1 := updEdge_none s.edges v0 v1 fid hf1n
      unfold BuildStep
      rw [hdeg]
      try dsimp only
      rw [hr1]
      rfl
    · by_cases hf2n : FindEdgeInfo s.edges v1 v2 = none
      · have hl2 : FindEdgeInfo (UpdEdge s.edges v0 v1 fid).1 v1 v2 = none := by
          rw [updEdge_preserves_lookup s.edges v0 v1 fid v1 v2 hnm12]
          exact hf2n
        have hr2 := updEdge_none _ v1 v2 fid hl2
        unfold BuildStep
        rw [hdeg]
        try dsimp only
        rw [hr2]
        simp only [Bool.and_false, Bool.false_and, Bool.false_eq_true, if_false]
      · by_cases hf3n : FindEdgeInfo s.edges v2 v0 = none
        · have hl3 : FindEdgeInfo (UpdEdge (UpdEdge s.edges v0 v1 fid).1 v1 v2 fid).1
              v2 v0 = none := by
            rw [updEdge_preserves_lookup _ v1 v2 fid v2 v0 hnm23,
              updEdge_preserves_lookup _ v0 v1 fid v2 v0 hnm13]
            exact hf3n
          have hr3 := updEdge_none _ v2 v0 fid hl3
          unfold BuildStep
          rw [hdeg]
          try dsimp only
          rw [hr3]
          simp only [Bool.and_false, Bool.false_and, Bool.false_eq_true, if_false]
        · obtain ⟨p1, hf1⟩ := Option.ne_none_iff_exists'.mp hf1n
          obtain ⟨p2', hf2⟩ := Option.ne_none_iff_exists'.mp hf2n
          obtain ⟨p3', hf3⟩ := Option.ne_none_iff_exists'.mp hf3n
          have hfalse : AlreadyExists { m_v0 := v0, m_v1 := v1, m_v2 := v2 }
              s.faceInfos = false := by
            rcases hother with h | h | h | h
            · exact absurd h hf1n
            · exact absurd h hf2n
            · exact absurd h hf3n
            · exact h
          have hfl1 := updEdge_found_flag s.edges v0 v1 fid p1 hf1
          have hfl2 := updEdge_found_flag (UpdEdge s.edges v0 v1 fid).1 v1 v2 fid p2'
            (by rw [updEdge_preserves_lookup s.edges v0 v1 fid v1 v2 hnm12]; exact hf2)
          have hfl3 := updEdge_found_flag
            (UpdEdge (UpdEdge s.edges v0 v1 fid).1 v1 v2 fid).1 v2 v0 fid p3'
            (by rw [updEdge_preserves_lookup _ v1 v2 fid v2 v0 hnm23,
                updEdge_preserves_lookup _ v0 v1 fid v2 v0 hnm13]; exact hf3)
          unfold BuildStep
          rw [hdeg]
          try dsimp only
          rw [hfl1, hfl2, hfl3, hfalse]
          rfl

/-- Witness for C7: a triangle already present in the state (its three
edges and its face) is dropped and the state is unchanged; the same
triangle against an empty state is appended. -/
theorem C7_duplicate_face_undo_witness :
    IsDegenerate3 0 1 2 = false ∧
    (((FindEdgeInfo [({ m_v0 := 0, m_v1 := 1, m_face0 := some 0 } : NvEdgeInfo),
         { m_v0 := 1, m_v1 := 2, m_face0 := some 0 },
         { m_v0 := 2, m_v1 := 0, m_face0 := some 0 }] 0 1 ≠ none ∧
       FindEdgeInfo [({ m_v0 := 0, m_v1 := 1, m_face0 := some 0 } : NvEdgeInfo),
         { m_v0 := 1, m_v1 := 2, m_face0 := some 0 },
         { m_v0 := 2, m_v1 := 0, m_face0 := some 0 }] 1 2 ≠ none ∧
       FindEdgeInfo [({ m_v0 := 0, m_v1 := 1, m_face0 := some 0 } : NvEdgeInfo),
         { m_v0 := 1, m_v1 := 2, m_face0 := some 0 },
         { m_v0 := 2, m_v1 := 0, m_face0 := some 0 }] 2 0 ≠ none ∧
       AlreadyExists { m_v0 := 0, m_v1 := 1, m_v2 := 2 }
         [{ m_v0 := 0, m_v1 := 1, m_v2 := 2 }] = true) →
      BuildStep ⟨[{ m_v0 := 0, m_v1 := 1, m_v2 := 2 }],
        [{ m_v0 := 0, m_v1 := 1, m_face0 := some 0 },
         { m_v0 := 1, m_v1 := 2, m_face0 := some 0 },
         { m_v0 := 2, m_v1 := 0, m_face0 := some 0 }]⟩ 1 0 1 2 =
        ⟨[{ m_v0 := 0, m_v1 := 1, m_v2 := 2 }],
         [{ m_v0 := 0, m_v1 := 1, m_face0 := some 0 },
          { m_v0 := 1, m_v1 := 2, m_face0 := some 0 },
          { m_v0 := 2, m_v1 := 0, m_face0 := some 0 }]⟩) ∧
     ((FindEdgeInfo [({ m_v0 := 0, m_v1 := 1, m_face0 := some 0 } : NvEdgeInfo),
         { m_v0 := 1, m_v1 := 2, m_face0 := some 0 },
         { m_v0 := 2, m_v1 := 0, m_face0 := some 0 }] 0 1 = none ∨
       FindEdgeInfo [({ m_v0 := 0, m_v1 := 1, m_face0 := some 0 } : NvEdgeInfo),
         { m_v0 := 1, m_v1 := 2, m_face0 := some 0 },
         { m_v0 := 2, m_v1 := 0, m_face0 := some 0 }] 1 2 = none ∨
       FindEdgeInfo [({ m_v0 := 0, m_v1 := 1, m_face0 := some 0 } : NvEdgeInfo),
         { m_v0 := 1, m_v1 := 2, m_face0 := some 0 },
         { m_v0 := 2, m_v1 := 0, m_face0 := some 0 }] 2 0 = none ∨
       AlreadyExists { m_v0 := 0, m_v1 := 1, m_v2 := 2 }
         [{ m_v0 := 0, m_v1 := 1, m_v2 := 2 }] = false) →
      (BuildStep ⟨[{ m_v0 := 0, m_v1 := 1, m_v2 := 2 }],
        [{ m_v0 := 0, m_v1 := 1, m_face0 := some 0 },
         { m_v0 := 1, m_v1 := 2, m_face0 := some 0 },
         { m_v0 := 2, m_v1 := 0, m_face0 := some 0 }]⟩ 1 0 1 2).faceInfos =
        [{ m_v0 := 0, m_v1 := 1, m_v2 := 2 }] ++ [{ m_v0 := 0, m_v1 := 1, m_v2 := 2 }])) :=
  ⟨by decide,
   C7_duplicate_face_undo
     ⟨[{ m_v0 := 0, m_v1 := 1, m_v2 := 2 }],
      [{ m_v0 := 0, m_v1 := 1, m_face0 := some 0 },
       { m_v0 := 1, m_v1 := 2, m_face0 := some 0 },
       { m_v0 := 2, m_v1 := 0, m_face0 := some 0 }]⟩ 1 0 1 2 (by decide)⟩

end NvTriStrip
